import Mathlib

/-!
# Verification of the miden-ir core IR data structures and validators

This development shallowly embeds the core of the miden-ir repository:
the arena-backed storage substrate (`ArenaMap`, `OrderedArenaMap` from
`hir/src/layout.rs`), the data-flow graph (`hir/src/dataflow.rs`), the
instruction model (`hir/src/instruction.rs`), and the validation rules
(`hir-analysis/src/validation/block.rs` and `typecheck.rs`), and proves
the specified properties about them.

Entity references (`Block`, `Inst`, `Value`) are small integers in the
source (`cranelift_entity` handles); they are embedded as `Nat`.
Source spans and the diagnostics sink are external crates
(`miden_diagnostics`) and carry no data any property here observes, so
they are omitted; a validation rule's emitted diagnostic is represented
by the structured error value it returns.
-/

namespace MidenIR

/-- Modelled from the spec: the `Type` enum of the miden-hir types module is
not among the provided sources (only its uses are). The spec names the types
`i1` (one-bit boolean), `u8/i8/u16/i16/u32/i32/u64/i64` machine integers, the
field element type `felt`, `f64`, and pointer types. -/
inductive Ty where
  | I1
  | U8
  | I8
  | U16
  | I16
  | U32
  | I32
  | U64
  | I64
  | Felt
  | F64
  | Ptr (pointee : Ty)
deriving DecidableEq, Repr

/-- Modelled from the spec: bit width of each type (machine integer widths are
standard; pointers are 32-bit addresses into Miden linear memory). -/
def Ty.sizeInBits : Ty → Nat
  | .I1 => 1
  | .U8 | .I8 => 8
  | .U16 | .I16 => 16
  | .U32 | .I32 => 32
  | .U64 | .I64 => 64
  | .Felt => 64
  | .F64 => 64
  | .Ptr _ => 32

/-- Modelled from the spec: `Type::is_integer`, true of the machine integer
types (casts `trunc`/`zext`/`sext` act between machine integer types; `felt`
has its own `cast` opcode). -/
def Ty.isInteger : Ty → Bool
  | .I1 | .U8 | .I8 | .U16 | .I16 | .U32 | .I32 | .U64 | .I64 => true
  | _ => false

/-- Modelled from the spec: `Type::is_unsigned_integer`. -/
def Ty.isUnsignedInteger : Ty → Bool
  | .U8 | .U16 | .U32 | .U64 => true
  | _ => false

/-- Modelled from the spec: `Type::is_signed_integer`. -/
def Ty.isSignedInteger : Ty → Bool
  | .I8 | .I16 | .I32 | .I64 => true
  | _ => false

/-- Modelled from the spec: `Type::is_pointer`. -/
def Ty.isPointer : Ty → Bool
  | .Ptr _ => true
  | _ => false

/-- Modelled from the spec: `Type::is_numeric` (integers, the field element,
and floats). -/
def Ty.isNumeric : Ty → Bool
  | .Felt | .F64 => true
  | t => t.isInteger

/-- Modelled from the spec: `Type::pointee`, the pointed-to type of a pointer. -/
def Ty.pointee : Ty → Option Ty
  | .Ptr t => some t
  | _ => none

/-- Modelled from the spec: `Type::size_in_felts`, the number of field
elements needed to store a value of this type on the operand stack (each
field element holds up to 4 bytes of data). -/
def Ty.sizeInFelts (t : Ty) : Nat :=
  (t.sizeInBits + 31) / 32

/-! ## Arena maps (`hir/src/layout.rs`)

`ArenaMap` stores values at stable addresses indexed by small integer keys.
The embedding replaces the arena + `NonNull` pointer indirection (a memory
optimization) with direct storage of the value in the key slot: `keys[k]`
is `none` when the key is allocated but unbound (or taken), and `some v`
when bound. Key allocation order and slot reuse behave exactly as in the
source. -/

structure ArenaMap (V : Type) where
  keys : List (Option V)
deriving DecidableEq, Repr

/-- `ArenaMap::new` -/
def ArenaMap.new {V : Type} : ArenaMap V := ⟨[]⟩

/-- `ArenaMap::alloc_key`: reserves the next key (current length) with no data. -/
def ArenaMap.allocKey {V : Type} (m : ArenaMap V) : Nat × ArenaMap V :=
  (m.keys.length, ⟨m.keys ++ [none]⟩)

/-- `ArenaMap::alloc_node` (used by `append`/`push`): binds data to a key. -/
def ArenaMap.allocNode {V : Type} (m : ArenaMap V) (key : Nat) (value : V) : ArenaMap V :=
  ⟨m.keys.set key (some value)⟩

/-- `ArenaMap::push`: `alloc_key` followed by `alloc_node`. -/
def ArenaMap.push {V : Type} (m : ArenaMap V) (value : V) : Nat × ArenaMap V :=
  let (key, m) := m.allocKey
  (key, m.allocNode key value)

/-- `ArenaMap::get` -/
def ArenaMap.get {V : Type} (m : ArenaMap V) (key : Nat) : Option V :=
  (m.keys.getD key none)

/-- `ArenaMap::contains` -/
def ArenaMap.contains {V : Type} (m : ArenaMap V) (key : Nat) : Bool :=
  (m.get key).isSome

/-- `ArenaMap::remove` (and `take`): unbinds the key without freeing the slot. -/
def ArenaMap.remove {V : Type} (m : ArenaMap V) (key : Nat) : ArenaMap V :=
  ⟨m.keys.set key none⟩

/-! ## Ordered arena map

`OrderedArenaMap` layers an intrusive doubly-linked list over an `ArenaMap`
to order a subset of the keys. The embedding keeps the `ArenaMap` (the
stored `LayoutNode` key field is the index itself, so only the value is
stored) plus the list of linked keys in list order. A node is linked
(`link.is_linked()`) exactly when its key occurs in `order`. -/

structure OrderedArenaMap (V : Type) where
  map : ArenaMap V
  order : List Nat
deriving DecidableEq, Repr

/-- `OrderedArenaMap::new` -/
def OrderedArenaMap.new {V : Type} : OrderedArenaMap V := ⟨ArenaMap.new, []⟩

/-- `OrderedArenaMap::create`: allocates a key without linking any data. -/
def OrderedArenaMap.create {V : Type} (m : OrderedArenaMap V) : Nat × OrderedArenaMap V :=
  let (key, am) := m.map.allocKey
  (key, ⟨am, m.order⟩)

/-- `OrderedArenaMap::contains` -/
def OrderedArenaMap.contains {V : Type} (m : OrderedArenaMap V) (key : Nat) : Bool :=
  m.map.contains key

/-- `OrderedArenaMap::get` -/
def OrderedArenaMap.get {V : Type} (m : OrderedArenaMap V) (key : Nat) : Option V :=
  m.map.get key

/-- `OrderedArenaMap::append`: binds data to `key` and links it at the back. -/
def OrderedArenaMap.append {V : Type} (m : OrderedArenaMap V) (key : Nat) (value : V) :
    OrderedArenaMap V :=
  ⟨m.map.allocNode key value, m.order ++ [key]⟩

/-- Inserts `key` immediately before the first occurrence of `before`
(the cursor in the source is positioned at `before` in O(1); a missing
`before` panics there, and here leaves the list unchanged). -/
def listInsertBefore (order : List Nat) (key before : Nat) : List Nat :=
  match order with
  | [] => []
  | x :: xs => if x = before then key :: x :: xs else x :: listInsertBefore xs key before

/-- Inserts `key` immediately after the first occurrence of `after`. -/
def listInsertAfter (order : List Nat) (key after : Nat) : List Nat :=
  match order with
  | [] => []
  | x :: xs => if x = after then x :: key :: xs else x :: listInsertAfter xs key after

/-- `OrderedArenaMap::insert_before`: binds data to `key` and links it
immediately before `before`. -/
def OrderedArenaMap.insertBefore {V : Type} (m : OrderedArenaMap V) (key before : Nat)
    (value : V) : OrderedArenaMap V :=
  ⟨m.map.allocNode key value, listInsertBefore m.order key before⟩

/-- `OrderedArenaMap::insert_after`: binds data to `key` and links it
immediately after `after`. -/
def OrderedArenaMap.insertAfter {V : Type} (m : OrderedArenaMap V) (key after : Nat)
    (value : V) : OrderedArenaMap V :=
  ⟨m.map.allocNode key value, listInsertAfter m.order key after⟩

/-- `OrderedArenaMap::push`: allocates a key and links its data at the back. -/
def OrderedArenaMap.push {V : Type} (m : OrderedArenaMap V) (value : V) :
    Nat × OrderedArenaMap V :=
  let (key, m) := m.create
  (key, m.append key value)

/-- `OrderedArenaMap::remove`: unlinks `key` from the list; the map binding is
NOT removed (the data is only reclaimed when the whole map is dropped). -/
def OrderedArenaMap.remove {V : Type} (m : OrderedArenaMap V) (key : Nat) :
    OrderedArenaMap V :=
  if (m.map.get key).isSome then ⟨m.map, m.order.erase key⟩ else m

/-- `OrderedArenaMap::keys`: the linked keys in list order (front to back). -/
def OrderedArenaMap.keysList {V : Type} (m : OrderedArenaMap V) : List Nat :=
  m.order

/-- `OrderedArenaMap::values`: the linked values in list order. -/
def OrderedArenaMap.valuesList {V : Type} (m : OrderedArenaMap V) : List V :=
  m.order.filterMap m.get

/-- One step of `Clone for OrderedArenaMap`: the clone iterates the
underlying `ArenaMap`'s key slots in key-index order; an unbound slot
replays `alloc_key`, a bound slot replays `push` (which links at the back). -/
def OrderedArenaMap.cloneStep {V : Type} (c : OrderedArenaMap V) (opt : Option V) :
    OrderedArenaMap V :=
  match opt with
  | none => (c.create).2
  | some v => (c.push v).2

/-- `Clone for OrderedArenaMap` (layout.rs:242): folds `cloneStep` over the
arena map's key slots in index order, starting from the empty map. -/
def OrderedArenaMap.clone {V : Type} (m : OrderedArenaMap V) : OrderedArenaMap V :=
  m.map.keys.foldl OrderedArenaMap.cloneStep OrderedArenaMap.new

/-! ## Instruction model (`hir/src/instruction.rs`) -/

/-- The opcode catalog (`Opcode` in instruction.rs). -/
inductive Opcode where
  | Assert | Assertz | AssertEq
  | ImmI1 | ImmU8 | ImmI8 | ImmU16 | ImmI16 | ImmU32 | ImmI32 | ImmU64 | ImmI64
  | ImmFelt | ImmF64
  | Alloca | MemGrow | GlobalValue | Load | Store | MemCpy
  | PtrToInt | IntToPtr | Cast | Trunc | Zext | Sext
  | Test | Select
  | Add | Sub | Mul | Div | Mod | DivMod | Neg | Inv | Incr | Pow2 | Exp
  | Not | Bnot | And | Band | Or | Bor | Xor | Bxor
  | Shl | Shr | Rotl | Rotr | Popcnt
  | Eq | Neq | Gt | Gte | Lt | Lte | IsOdd | Min | Max
  | Call | Syscall | Br | CondBr | Switch | Ret | Unreachable | InlineAsm
deriving DecidableEq, Repr

/-- `Opcode::is_terminator` -/
def Opcode.isTerminator : Opcode → Bool
  | .Br | .CondBr | .Switch | .Ret | .Unreachable => true
  | _ => false

/-- `Opcode::is_branch` -/
def Opcode.isBranch : Opcode → Bool
  | .Br | .CondBr | .Switch => true
  | _ => false

/-- `Opcode::is_call` -/
def Opcode.isCall : Opcode → Bool
  | .Call | .Syscall => true
  | _ => false

/-- `Opcode::results`: the result type list determined by the controlling
type variable. `Load` derives its result from the pointee of the controlling
(pointer) type — the source panics when the controlling type is not a
pointer, which the embedding renders as an empty result list (theorems using
this function restrict to the non-panicking inputs). `Call`/`Syscall`/
`InlineAsm` are `unreachable!()` in the source because their results come
from an external signature or inline payload; callers never reach this arm. -/
def Opcode.results (op : Opcode) (ctrlTy : Ty) : List Ty :=
  match op with
  | .Assert | .Assertz | .AssertEq | .Store | .MemGrow | .MemCpy
  | .Br | .CondBr | .Switch | .Ret | .Unreachable => []
  | .Test | .IsOdd | .Not | .And | .Or | .Xor
  | .Eq | .Neq | .Gt | .Gte | .Lt | .Lte => [Ty.I1]
  | .ImmI1 | .ImmU8 | .ImmI8 | .ImmU16 | .ImmI16 | .ImmU32 | .ImmI32
  | .ImmU64 | .ImmI64 | .ImmFelt | .ImmF64
  | .GlobalValue | .Alloca | .PtrToInt | .IntToPtr | .Cast | .Trunc
  | .Zext | .Sext | .Select
  | .Add | .Sub | .Mul | .Div | .Min | .Max | .Neg | .Inv | .Incr
  | .Pow2 | .Popcnt | .Mod | .DivMod | .Exp | .Bnot | .Band | .Bor | .Bxor
  | .Shl | .Shr | .Rotl | .Rotr => [ctrlTy]
  | .Load =>
    match ctrlTy.pointee with
    | some p => [p]
    | none => []
  | .Call | .Syscall | .InlineAsm => []

/-- `Overflow` (instruction.rs): the four-way overflow-handling mode. -/
inductive Overflow where
  | Unchecked | Checked | Wrapping | Overflowing
deriving DecidableEq, Repr

/-- Modelled from the spec: `Immediate` (missing from the provided sources)
is a typed immediate constant; the only observation the embedded code makes
of it is its type (`Immediate::ty`). -/
structure Immediate where
  ty : Ty
  val : Int
deriving DecidableEq, Repr

/-- Modelled from the spec: `Ident`/`Symbol` compare by interned name. A
`FunctionIdent` keys the import table by module name + function name. -/
structure FunctionIdent where
  module : String
  function : String
deriving DecidableEq, Repr

/-- The tagged-variant instruction encoding (`Instruction` in
instruction.rs). `ValueList` operands (pool-backed small sequences of
values) are embedded as plain `List Nat`; `deep_clone` copies a list's
contents into fresh pool storage, so content equality is the observable.
A switch arm is a (discriminant, successor block) pair. The `InlineAsm`
payload keeps only the fields the embedded code reads (`args`,
`results`). -/
inductive Instruction where
  | globalValue (op : Opcode) (global : Nat)
  | binaryOp (op : Opcode) (overflow : Overflow) (arg1 arg2 : Nat)
  | binaryOpImm (op : Opcode) (overflow : Overflow) (arg : Nat) (imm : Immediate)
  | unaryOp (op : Opcode) (overflow : Overflow) (arg : Nat)
  | unaryOpImm (op : Opcode) (overflow : Overflow) (imm : Immediate)
  | call (op : Opcode) (callee : FunctionIdent) (args : List Nat)
  | br (op : Opcode) (destination : Nat) (args : List Nat)
  | condBr (op : Opcode) (cond : Nat) (thenDest : Nat × List Nat) (elseDest : Nat × List Nat)
  | switch (op : Opcode) (arg : Nat) (arms : List (Nat × Nat)) (fallback : Nat)
  | ret (op : Opcode) (args : List Nat)
  | retImm (op : Opcode) (arg : Immediate)
  | load (op : Opcode) (addr : Nat) (ty : Ty)
  | primOp (op : Opcode) (args : List Nat)
  | primOpImm (op : Opcode) (imm : Immediate) (args : List Nat)
  | test (op : Opcode) (arg : Nat) (ty : Ty)
  | inlineAsm (op : Opcode) (args : List Nat) (results : List Ty)
deriving DecidableEq, Repr

/-- `Instruction::opcode` -/
def Instruction.opcode : Instruction → Opcode
  | .globalValue op _ => op
  | .binaryOp op _ _ _ => op
  | .binaryOpImm op _ _ _ => op
  | .unaryOp op _ _ => op
  | .unaryOpImm op _ _ => op
  | .call op _ _ => op
  | .br op _ _ => op
  | .condBr op _ _ _ => op
  | .switch op _ _ _ => op
  | .ret op _ => op
  | .retImm op _ => op
  | .load op _ _ => op
  | .primOp op _ => op
  | .primOpImm op _ _ => op
  | .test op _ _ => op
  | .inlineAsm op _ _ => op

/-- `Instruction::arguments`: the fixed/variable operand values of the
instruction (a conditional branch exposes only its condition here; its
destination argument lists are reached through `analyze_branch`). -/
def Instruction.arguments : Instruction → List Nat
  | .binaryOp _ _ a b => [a, b]
  | .binaryOpImm _ _ a _ => [a]
  | .unaryOp _ _ a => [a]
  | .call _ _ args => args
  | .condBr _ cond _ _ => [cond]
  | .switch _ a _ _ => [a]
  | .ret _ args => args
  | .load _ addr _ => [addr]
  | .primOp _ args => args
  | .primOpImm _ _ args => args
  | .test _ a _ => [a]
  | .inlineAsm _ args _ => args
  | .globalValue _ _ => []
  | .unaryOpImm _ _ _ => []
  | .br _ _ _ => []
  | .retImm _ _ => []

/-- A `(destination, argument list)` entry of a multi-destination branch
(`JumpTable` in instruction.rs). -/
structure JumpTableEntry where
  destination : Nat
  args : List Nat
deriving DecidableEq, Repr

/-- `BranchInfo` (instruction.rs). -/
inductive BranchInfo where
  | notABranch
  | singleDest (dest : Nat) (args : List Nat)
  | multiDest (jts : List JumpTableEntry)
deriving DecidableEq, Repr

/-- `Instruction::analyze_branch` -/
def Instruction.analyzeBranch : Instruction → BranchInfo
  | .br _ destination args => .singleDest destination args
  | .condBr _ _ thenDest elseDest =>
    .multiDest [⟨thenDest.1, thenDest.2⟩, ⟨elseDest.1, elseDest.2⟩]
  | .switch _ _ arms fallback =>
    .multiDest ((arms.map fun a => JumpTableEntry.mk a.2 []) ++ [⟨fallback, []⟩])
  | _ => .notABranch

/-- `CallInfo` (instruction.rs). -/
inductive CallInfo where
  | notACall
  | direct (callee : FunctionIdent) (args : List Nat)
deriving DecidableEq, Repr

/-- `Instruction::analyze_call` -/
def Instruction.analyzeCall : Instruction → CallInfo
  | .call _ callee args => .direct callee args
  | _ => .notACall

/-- True exactly of the three branch forms (`Br`, `CondBr`, `Switch`
variants); every other instruction is a non-branch. -/
def Instruction.isBranchForm : Instruction → Bool
  | .br _ _ _ => true
  | .condBr _ _ _ _ => true
  | .switch _ _ _ _ => true
  | _ => false

/-! ## Data-flow graph (`hir/src/dataflow.rs`)

Supporting types defined outside the provided sources (`ValueData`,
`BlockData`, `Signature`, `ExternalFunction`, `GlobalValueData`) are
modelled from the spec, keeping exactly the fields the provided code
reads. -/

/-- Modelled from the spec: a `Value`'s producer is either a block
parameter (owned by a block, with a position index and type) or an
instruction result (owned by an instruction, with a position index and
type). Source spans carry no observable data here and are omitted. -/
inductive ValueData where
  | param (ty : Ty) (num : Nat) (block : Nat)
  | instResult (ty : Ty) (inst : Nat) (num : Nat)
deriving DecidableEq, Repr

/-- `ValueData::ty` -/
def ValueData.ty : ValueData → Ty
  | .param t _ _ => t
  | .instResult t _ _ => t

/-- `ValueData::set_type`: values are never mutated in identity, only in
recorded type. -/
def ValueData.setType : ValueData → Ty → ValueData
  | .param _ num block, t => .param t num block
  | .instResult _ inst num, t => .instResult t inst num

/-- `InstNode` (instruction.rs): the arena node for one instruction. The
intrusive `link` is embedded as a `linked` flag (a node is linked exactly
when it sits in some block's instruction list). -/
structure InstNode where
  key : Nat
  block : Nat
  linked : Bool
  data : Instruction
deriving DecidableEq, Repr

/-- Modelled from the spec: `BlockData` holds the block's id, its typed
parameter list (a pool-backed `ValueList`, embedded as a list of values)
and its ordered instruction sequence (an intrusive list of `InstNode`s). -/
structure BlockData where
  id : Nat
  params : List Nat
  insts : List InstNode
deriving DecidableEq, Repr

/-- Modelled from the spec: an ABI parameter of a function signature; only
its type is observed by the embedded code. -/
structure AbiParam where
  ty : Ty
deriving DecidableEq, Repr

/-- Modelled from the spec: a function signature records parameter and
result types; import conflict detection compares signatures for equality. -/
structure Signature where
  params : List AbiParam
  results : List AbiParam
deriving DecidableEq, Repr

/-- `ExternalFunction`: a named external function's signature. -/
structure ExternalFunction where
  id : FunctionIdent
  signature : Signature
deriving DecidableEq, Repr

/-- `SymbolConflictError`: names the conflicting function identifier. -/
structure SymbolConflictError where
  id : FunctionIdent
deriving DecidableEq, Repr

/-- Modelled from the spec: `GlobalValueData` is a small expression form —
a named external symbol, an integer offset from another global, or a typed
load through another global. -/
inductive GlobalValueData where
  | symbol (name : String)
  | iaddImm (base : Nat) (offset : Int)
  | load (base : Nat) (ty : Ty)
deriving DecidableEq, Repr

/-- Set the binding of `k` in an association list, preserving first-found
lookup semantics (used to embed `SecondaryMap<Inst, ValueList>`). -/
def assocSet (rs : List (Nat × List Nat)) (k : Nat) (v : List Nat) : List (Nat × List Nat) :=
  match rs with
  | [] => [(k, v)]
  | (k0, v0) :: rest => if k0 = k then (k, v) :: rest else (k0, v0) :: assocSet rest k v

/-- Lookup in the association list with the `SecondaryMap` default (the
empty value list). -/
def assocGet (rs : List (Nat × List Nat)) (k : Nat) : List Nat :=
  match rs with
  | [] => []
  | (k0, v0) :: rest => if k0 = k then v0 else assocGet rest k

/-- `DataFlowGraph` (dataflow.rs): blocks in an ordered arena map,
instructions in an arena map, per-instruction result value lists
(`SecondaryMap`, embedded as an association list defaulting to `[]`),
value definitions (`PrimaryMap`, embedded as a list indexed by value id),
the import table (`FxHashMap`, embedded as an association list), and
global value definitions. The value-list pool and constant pool are
memory-sharing devices with no observable state of their own and are
omitted (value lists are stored inline). -/
structure DataFlowGraph where
  entry : Nat
  blocks : OrderedArenaMap BlockData
  insts : ArenaMap InstNode
  results : List (Nat × List Nat)
  values : List ValueData
  imports : List (FunctionIdent × ExternalFunction)
  globals : List GlobalValueData
deriving DecidableEq, Repr

/-- `DataFlowGraph::value_type` (out-of-range value ids panic in the
source's `PrimaryMap`; the embedding returns `I1` there and theorems
restrict to in-range ids). -/
def DataFlowGraph.valueType (dfg : DataFlowGraph) (v : Nat) : Ty :=
  match dfg.values[v]? with
  | some d => d.ty
  | none => Ty.I1

/-- `DataFlowGraph::value_data` (same out-of-range caveat as `valueType`). -/
def DataFlowGraph.valueData (dfg : DataFlowGraph) (v : Nat) : ValueData :=
  (dfg.values.getD v (ValueData.param Ty.I1 0 0))

/-- `DataFlowGraph::set_value_type` -/
def DataFlowGraph.setValueType (dfg : DataFlowGraph) (v : Nat) (ty : Ty) : DataFlowGraph :=
  match dfg.values[v]? with
  | some d => { dfg with values := dfg.values.set v (d.setType ty) }
  | none => dfg

/-- `DataFlowGraph::inst_results` -/
def DataFlowGraph.instResults (dfg : DataFlowGraph) (inst : Nat) : List Nat :=
  assocGet dfg.results inst

/-- `DataFlowGraph::inst_block`: `Some` of the recorded block when the
instruction's intrusive link is linked, `None` when detached. -/
def DataFlowGraph.instBlock (dfg : DataFlowGraph) (inst : Nat) : Option Nat :=
  match dfg.insts.get inst with
  | some node => if node.linked then some node.block else none
  | none => none

/-- `DataFlowGraph::get_import` -/
def DataFlowGraph.getImport (dfg : DataFlowGraph) (id : FunctionIdent) :
    Option ExternalFunction :=
  (dfg.imports.lookup id)

/-- `DataFlowGraph::import_function`: vacant entries are inserted; an
occupied entry with a different signature is a conflict error naming the
identifier, and with an equal signature succeeds idempotently. Returns the
result together with the (possibly updated) graph. -/
def DataFlowGraph.importFunction (dfg : DataFlowGraph) (module function : String)
    (signature : Signature) : Except SymbolConflictError FunctionIdent × DataFlowGraph :=
  let id : FunctionIdent := ⟨module, function⟩
  match dfg.imports.lookup id with
  | none =>
    (Except.ok id, { dfg with imports := dfg.imports ++ [(id, ⟨id, signature⟩)] })
  | some entry =>
    if entry.signature ≠ signature then (Except.error ⟨id⟩, dfg)
    else (Except.ok id, dfg)

/-- `DataFlowGraph::global_value` (an unallocated global value id panics in
the source; the embedding returns a placeholder there). -/
def DataFlowGraph.globalValue (dfg : DataFlowGraph) (gv : Nat) : GlobalValueData :=
  dfg.globals.getD gv (GlobalValueData.symbol "")

/-- `DataFlowGraph::call_signature`: `None` for a non-call; for a direct
call, the callee's imported signature (the source panics when the callee
is not imported; the embedding returns `None` there, and the type checker
separately rejects unresolved callees before reaching this). -/
def DataFlowGraph.callSignature (dfg : DataFlowGraph) (inst : Nat) : Option Signature :=
  match dfg.insts.get inst with
  | none => none
  | some node =>
    match node.data.analyzeCall with
    | .notACall => none
    | .direct f _ => (dfg.getImport f).map ExternalFunction.signature

/-- `DataFlowGraph::append_result`: allocates the next value id as a result
of `inst` (its position index is the previous result count) and appends it
to the instruction's result list. -/
def DataFlowGraph.appendResult (dfg : DataFlowGraph) (inst : Nat) (ty : Ty) : DataFlowGraph :=
  let res := dfg.values.length
  let old := dfg.instResults inst
  { dfg with
    results := assocSet dfg.results inst (old ++ [res])
    values := dfg.values ++ [ValueData.instResult ty inst old.length] }

/-- The new result type list computed by `DataFlowGraph::replace_results`:
from the callee signature for calls, from the inline payload for inline
assembly, otherwise from the opcode's `results(controlling type)` rule. -/
def DataFlowGraph.newResultTypes (dfg : DataFlowGraph) (inst : Nat) (ctrlTy : Ty) : List Ty :=
  match dfg.callSignature inst with
  | some sig => sig.results.map AbiParam.ty
  | none =>
    match dfg.insts.get inst with
    | some node =>
      match node.data with
      | .inlineAsm _ _ rs => rs
      | _ => node.data.opcode.results ctrlTy
    | none => []

/-- The indexed loop of `DataFlowGraph::replace_results`: positions below
the old result count update the old value's recorded type in place;
positions at or beyond it allocate and append a new result value. -/
def replaceResultsLoop (inst : Nat) (oldResults : List Nat) :
    List Ty → Nat → DataFlowGraph → DataFlowGraph
  | [], _, dfg => dfg
  | ty :: rest, index, dfg =>
    let dfg' :=
      if index ≥ oldResults.length then dfg.appendResult inst ty
      else dfg.setValueType (oldResults.getD index 0) ty
    replaceResultsLoop inst oldResults rest (index + 1) dfg'

/-- `DataFlowGraph::replace_results`: snapshots the old result values,
computes the new result types, truncates the stored result list when it
shrinks, then runs the reuse/append loop. -/
def DataFlowGraph.replaceResults (dfg : DataFlowGraph) (inst : Nat) (ctrlTy : Ty) :
    DataFlowGraph :=
  let oldResults := dfg.instResults inst
  let newResults := dfg.newResultTypes inst ctrlTy
  let dfg1 :=
    if oldResults.length > newResults.length then
      { dfg with results := assocSet dfg.results inst (oldResults.take newResults.length)
                 values := dfg.values }
    else dfg
  replaceResultsLoop inst oldResults newResults 0 dfg1

/-- `DataFlowGraph::clone_inst`: allocates a fresh instruction key, stores a
detached node (`Block::default()` recorded block, unlinked) whose payload is
a deep clone of the original's (content-equal operand lists), then derives
fresh result values of the original results' types, in order. Returns the
new key with the updated graph; the source panics when `inst` has no node,
which the embedding renders by returning the graph unchanged. -/
def DataFlowGraph.cloneInst (dfg : DataFlowGraph) (inst : Nat) : Nat × DataFlowGraph :=
  match dfg.insts.get inst with
  | none => (0, dfg)
  | some node =>
    let (id, insts1) := dfg.insts.allocKey
    let insts2 := insts1.allocNode id ⟨id, 0, false, node.data⟩
    let dfg1 := { dfg with insts := insts2 }
    let oldResults := dfg.instResults inst
    let dfg2 := oldResults.foldl (fun d r => d.appendResult id (d.valueType r)) dfg1
    (id, dfg2)

/-- `DataFlowGraph::is_block_inserted` -/
def DataFlowGraph.isBlockInserted (dfg : DataFlowGraph) (block : Nat) : Bool :=
  dfg.blocks.contains block

/-- `DataFlowGraph::block`: the block's data (panics in the source when the
key was never bound; the embedding exposes the underlying `Option`). -/
def DataFlowGraph.blockGet (dfg : DataFlowGraph) (block : Nat) : Option BlockData :=
  dfg.blocks.get block

/-- `DataFlowGraph::block_params` (and `block_args`): the block's parameter
values. -/
def DataFlowGraph.blockParams (dfg : DataFlowGraph) (block : Nat) : List Nat :=
  match dfg.blocks.get block with
  | some bd => bd.params
  | none => []

/-- `DataFlowGraph::block_insts`: the block's instruction sequence (keys in
block order). -/
def DataFlowGraph.blockInsts (dfg : DataFlowGraph) (block : Nat) : List Nat :=
  match dfg.blocks.get block with
  | some bd => bd.insts.map InstNode.key
  | none => []

/-- `DataFlowGraph::blocks`: layout iteration yields the linked blocks in
list order. -/
def DataFlowGraph.blocksKeys (dfg : DataFlowGraph) : List Nat :=
  dfg.blocks.keysList

/-- `DataFlowGraph::detach_block`: removes the block from the layout order
without destroying its data. -/
def DataFlowGraph.detachBlock (dfg : DataFlowGraph) (block : Nat) : DataFlowGraph :=
  { dfg with blocks := dfg.blocks.remove block }

/-! ## Validation subsystem (`hir-analysis/src/validation/`)

`TypeError`, `TypePattern` and `InstPattern` are taken directly from
`typecheck.rs`. `ValidationError` itself is defined in the crate's
`validation/mod.rs`, which is not among the provided sources; it is
modelled from the spec's error taxonomy: structural block errors and
per-instruction errors (each emitted with one diagnostic, represented
here by the structured reason), plus wrapped type errors. -/

/-- `TypePattern` (typecheck.rs): a match pattern over kinds of types. -/
inductive TypePattern where
  | any
  | int
  | uint
  | sint
  | pointer
  | primitive
  | exact (ty : Ty)
deriving DecidableEq, Repr

/-- `TypePattern::matches` -/
def TypePattern.matches : TypePattern → Ty → Bool
  | .any, _ => true
  | .int, ty => ty.isInteger
  | .uint, ty => ty.isUnsignedInteger
  | .sint, ty => ty.isSignedInteger
  | .pointer, ty => ty.isPointer
  | .primitive, ty => ty.isNumeric || ty.isPointer
  | .exact expected, ty => expected = ty

/-- `TypeError` (typecheck.rs). -/
inductive TypeError where
  | incorrectArgumentCount (expected actual : Nat)
  | incorrectResultCount (expected actual : Nat)
  | incorrectArgumentType (expected : TypePattern) (actual : Ty) (index : Nat)
  | invalidResultType (expected : TypePattern) (actual : Ty) (index : Nat)
  | incorrectSuccessorArgumentCount (successor : Nat) (expected actual : Nat)
  | incorrectSuccessorArgumentType (successor : Nat) (expected actual : Ty) (index : Nat)
  | invalidWideningCast (expected actual : Ty)
  | invalidNarrowingCast (expected actual : Ty)
  | matchingArgumentTypeViolation (expected actual : Ty) (index : Nat)
  | matchingResultTypeViolation (expected actual : Ty)
deriving DecidableEq, Repr

/-- Modelled from the spec: the structured reasons carried by the
`invalid_instruction!` diagnostics of the validation rules (the source
formats them into message strings; the embedding keeps the data each
message interpolates). -/
inductive InvalidInstReason where
  | invalidSuccessor (block dest : Nat)
  | duplicateSuccessor (block dest : Nat)
  | incompleteBranch
  | selfUse
  | notDominated (value : Nat)
  | immediateOpcodeRequiresImmediate
  | immediateNotAllowed
  | loadTooLarge (ty : Ty)
  | duplicateDiscriminant (index prev : Nat)
  | switchSuccessorHasParams (successor : Nat)
  | unresolvedCallee (callee : FunctionIdent)
deriving DecidableEq, Repr

/-- Modelled from the spec: the structured reasons carried by the
`invalid_block!` diagnostics of the block well-formedness rule. -/
inductive InvalidBlockReason where
  | emptyBlock
  | invalidTerminator
  | midBlockTerminator
deriving DecidableEq, Repr

/-- Modelled from the spec: `ValidationError` (validation/mod.rs is not
among the provided sources) — a structural block error, a per-instruction
error, or a type error. -/
inductive ValidationError where
  | invalidBlock (block : Nat) (reason : InvalidBlockReason)
  | invalidInstruction (inst : Nat) (reason : InvalidInstReason)
  | typeError (err : TypeError)
deriving DecidableEq, Repr

/-- `InstPattern` (typecheck.rs): declarative operand/result type shapes. -/
inductive InstPattern where
  | empty
  | unary (p : TypePattern)
  | unaryNoResult (p : TypePattern)
  | unaryMap (pin pout : TypePattern)
  | unaryWideningCast (pin pout : TypePattern)
  | unaryNarrowingCast (pin pout : TypePattern)
  | binary (plhs prhs : TypePattern)
  | binaryMatching (p : TypePattern)
  | binaryMatchingNoResult (p : TypePattern)
  | binaryPredicate (p : TypePattern)
  | ternaryMatching (pcond pinout : TypePattern)
  | exactPat (argPats resultPats : List TypePattern)
  | anyPat
deriving DecidableEq, Repr

/-- `InstPattern::into_unary_match`: the unary shapes evaluated on the
actual operand type and (optional) actual result type. The non-unary
shapes are `unreachable!()` in the source (the dispatcher never sends
them here); the embedding returns `ok` on those dead arms. A missing
result type for the mapping/cast shapes is likewise an `expect` panic in
the source and never occurs (the dispatcher has already checked the
result count); those dead arms also return `ok`. -/
def InstPattern.intoUnaryMatch : InstPattern → Ty → Option Ty → Except TypeError Unit
  | .unary expected, actualIn, actualOut
  | .unaryNoResult expected, actualIn, actualOut =>
    if ¬expected.matches actualIn then
      .error (.incorrectArgumentType expected actualIn 0)
    else
      match actualOut with
      | some out =>
        if actualIn ≠ out then .error (.matchingResultTypeViolation actualIn out)
        else .ok ()
      | none => .ok ()
  | .unaryMap expectedIn expectedOut, actualIn, actualOut =>
    if ¬expectedIn.matches actualIn then
      .error (.incorrectArgumentType expectedIn actualIn 0)
    else
      match actualOut with
      | some out =>
        if ¬expectedOut.matches out then .error (.invalidResultType expectedOut out 0)
        else .ok ()
      | none => .ok ()
  | .unaryWideningCast expectedIn expectedOut, actualIn, actualOut =>
    if ¬expectedIn.matches actualIn then
      .error (.incorrectArgumentType expectedIn actualIn 0)
    else
      match actualOut with
      | some out =>
        if ¬expectedOut.matches out then .error (.invalidResultType expectedOut out 0)
        else if actualIn.sizeInBits > out.sizeInBits then
          .error (.invalidWideningCast actualIn out)
        else .ok ()
      | none => .ok ()
  | .unaryNarrowingCast expectedIn expectedOut, actualIn, actualOut =>
    if ¬expectedIn.matches actualIn then
      .error (.incorrectArgumentType expectedIn actualIn 0)
    else
      match actualOut with
      | some out =>
        if ¬expectedOut.matches out then .error (.invalidResultType expectedOut out 0)
        else if actualIn.sizeInBits < out.sizeInBits then
          .error (.invalidNarrowingCast actualIn out)
        else .ok ()
      | none => .ok ()
  | _, _, _ => .ok ()

/-- `InstPattern::into_binary_match` (dead non-binary arms return `ok` as
in `intoUnaryMatch`). -/
def InstPattern.intoBinaryMatch : InstPattern → Ty → Ty → Option Ty → Except TypeError Unit
  | .binary expectedLhs expectedRhs, lhs, rhs, result =>
    if ¬expectedLhs.matches lhs then
      .error (.incorrectArgumentType expectedLhs lhs 0)
    else if ¬expectedRhs.matches rhs then
      .error (.incorrectArgumentType expectedRhs rhs 1)
    else
      match result with
      | some r =>
        if lhs ≠ r then .error (.matchingResultTypeViolation lhs r) else .ok ()
      | none => .ok ()
  | .binaryMatching expected, lhs, rhs, result
  | .binaryMatchingNoResult expected, lhs, rhs, result =>
    if ¬expected.matches lhs then
      .error (.incorrectArgumentType expected lhs 0)
    else if lhs ≠ rhs then
      .error (.matchingArgumentTypeViolation lhs rhs 1)
    else
      match result with
      | some r =>
        if lhs ≠ r then .error (.matchingResultTypeViolation lhs r) else .ok ()
      | none => .ok ()
  | .binaryPredicate expected, lhs, rhs, result =>
    if ¬expected.matches lhs then
      .error (.incorrectArgumentType expected lhs 0)
    else if lhs ≠ rhs then
      .error (.matchingArgumentTypeViolation lhs rhs 1)
    else
      match result with
      | some r =>
        if r ≠ Ty.I1 then .error (.matchingResultTypeViolation Ty.I1 r) else .ok ()
      | none => .ok ()
  | _, _, _, _ => .ok ()

/-- `InstPattern::into_ternary_match` (dead arms return `ok`). -/
def InstPattern.intoTernaryMatch : InstPattern → Ty → Ty → Ty → Ty → Except TypeError Unit
  | .ternaryMatching expectedCond expectedInout, cond, lhs, rhs, result =>
    if ¬expectedCond.matches cond then
      .error (.incorrectArgumentType expectedCond cond 0)
    else if ¬expectedInout.matches lhs then
      .error (.incorrectArgumentType expectedInout lhs 1)
    else if lhs ≠ rhs then
      .error (.incorrectArgumentType (.exact lhs) rhs 2)
    else if lhs ≠ result then
      .error (.matchingResultTypeViolation lhs result)
    else .ok ()
  | _, _, _, _, _ => .ok ()

/-- The argument loop of the `Exact` arm of `into_match`. -/
def checkExactArgs (dfg : DataFlowGraph) :
    List TypePattern → List Nat → Nat → Except TypeError Unit
  | [], _, _ => .ok ()
  | _ :: _, [], _ => .ok ()
  | expected :: es, arg :: rest, index =>
    let actual := dfg.valueType arg
    if ¬expected.matches actual then .error (.incorrectArgumentType expected actual index)
    else checkExactArgs dfg es rest (index + 1)

/-- The result loop of the `Exact` arm of `into_match`. -/
def checkExactResults (dfg : DataFlowGraph) :
    List TypePattern → List Nat → Nat → Except TypeError Unit
  | [], _, _ => .ok ()
  | _ :: _, [], _ => .ok ()
  | expected :: es, result :: rest, index =>
    let actual := dfg.valueType result
    if ¬expected.matches actual then .error (.invalidResultType expected actual index)
    else checkExactResults dfg es rest (index + 1)

/-- The shared count checks of the one-argument, one-result shapes of
`into_match`. -/
def unaryShape (p : InstPattern) (dfg : DataFlowGraph) (args results : List Nat) :
    Except TypeError Unit :=
  if args.length ≠ 1 then .error (.incorrectArgumentCount 1 args.length)
  else if results.length ≠ 1 then .error (.incorrectResultCount 1 results.length)
  else
    p.intoUnaryMatch (dfg.valueType (args.getD 0 0))
      (some (dfg.valueType (results.getD 0 0)))

/-- The shared count checks of the two-argument, one-result shapes of
`into_match`. -/
def binaryShape (p : InstPattern) (dfg : DataFlowGraph) (args results : List Nat) :
    Except TypeError Unit :=
  if args.length ≠ 2 then .error (.incorrectArgumentCount 2 args.length)
  else if results.length ≠ 1 then .error (.incorrectResultCount 1 results.length)
  else
    p.intoBinaryMatch (dfg.valueType (args.getD 0 0)) (dfg.valueType (args.getD 1 0))
      (some (dfg.valueType (results.getD 0 0)))

/-- `InstPattern::into_match`: dispatches the pattern over the actual
argument and result values, checking counts first (argument count before
result count, exactly as the source, including the source's quirk that
the `Empty` shape's result-count error reports `args.len()` as the actual
count). -/
def InstPattern.intoMatch (p : InstPattern) (dfg : DataFlowGraph)
    (args results : List Nat) : Except TypeError Unit :=
  match p with
  | .empty =>
    if args.length ≠ 0 then .error (.incorrectArgumentCount 0 args.length)
    else if results.length ≠ 0 then .error (.incorrectResultCount 0 args.length)
    else .ok ()
  | .unary e => unaryShape (.unary e) dfg args results
  | .unaryMap ein eout => unaryShape (.unaryMap ein eout) dfg args results
  | .unaryWideningCast ein eout => unaryShape (.unaryWideningCast ein eout) dfg args results
  | .unaryNarrowingCast ein eout => unaryShape (.unaryNarrowingCast ein eout) dfg args results
  | .unaryNoResult e =>
    if args.length ≠ 1 then .error (.incorrectArgumentCount 1 args.length)
    else if results.length ≠ 0 then .error (.incorrectResultCount 0 results.length)
    else InstPattern.intoUnaryMatch (.unaryNoResult e) (dfg.valueType (args.getD 0 0)) none
  | .binary el er => binaryShape (.binary el er) dfg args results
  | .binaryMatching e => binaryShape (.binaryMatching e) dfg args results
  | .binaryPredicate e => binaryShape (.binaryPredicate e) dfg args results
  | .binaryMatchingNoResult e =>
    if args.length ≠ 2 then .error (.incorrectArgumentCount 2 args.length)
    else if results.length ≠ 0 then .error (.incorrectResultCount 0 results.length)
    else
      InstPattern.intoBinaryMatch (.binaryMatchingNoResult e)
        (dfg.valueType (args.getD 0 0)) (dfg.valueType (args.getD 1 0)) none
  | .ternaryMatching ec ei =>
    if args.length ≠ 3 then .error (.incorrectArgumentCount 3 args.length)
    else if results.length ≠ 1 then .error (.incorrectResultCount 1 results.length)
    else
      InstPattern.intoTernaryMatch (.ternaryMatching ec ei)
        (dfg.valueType (args.getD 0 0)) (dfg.valueType (args.getD 1 0))
        (dfg.valueType (args.getD 2 0)) (dfg.valueType (results.getD 0 0))
  | .exactPat expectedArgs expectedResults =>
    if args.length ≠ expectedArgs.length then
      .error (.incorrectArgumentCount expectedArgs.length args.length)
    else if results.length ≠ expectedResults.length then
      .error (.incorrectResultCount expectedResults.length results.length)
    else
      match checkExactArgs dfg expectedArgs args 0 with
      | .error e => .error e
      | .ok _ => checkExactResults dfg expectedResults results 0
  | .anyPat => .ok ()

/-- Count checks of the immediate-fed unary shapes of
`into_match_with_immediate`. -/
def unaryImmShape (p : InstPattern) (dfg : DataFlowGraph) (args : List Nat)
    (imm : Immediate) (results : List Nat) : Except TypeError Unit :=
  if args.length ≠ 0 then .error (.incorrectArgumentCount 1 (args.length + 1))
  else if results.length ≠ 1 then .error (.incorrectResultCount 1 results.length)
  else p.intoUnaryMatch imm.ty (some (dfg.valueType (results.getD 0 0)))

/-- Count checks of the immediate-fed binary shapes of
`into_match_with_immediate`. -/
def binaryImmShape (p : InstPattern) (dfg : DataFlowGraph) (args : List Nat)
    (imm : Immediate) (results : List Nat) : Except TypeError Unit :=
  if args.length ≠ 1 then .error (.incorrectArgumentCount 2 (args.length + 1))
  else if results.length ≠ 1 then .error (.incorrectResultCount 1 results.length)
  else
    p.intoBinaryMatch (dfg.valueType (args.getD 0 0)) imm.ty
      (some (dfg.valueType (results.getD 0 0)))

/-- `InstPattern::into_match_with_immediate`: like `into_match` but the
instruction's immediate supplies the first (for unary shapes, only)
operand type; the `Empty` shape panics in the source and is never
dispatched here (the embedding returns `ok` on that dead arm). -/
def InstPattern.intoMatchWithImmediate (p : InstPattern) (dfg : DataFlowGraph)
    (args : List Nat) (imm : Immediate) (results : List Nat) : Except TypeError Unit :=
  match p with
  | .empty => .ok ()
  | .unary e => unaryImmShape (.unary e) dfg args imm results
  | .unaryMap ein eout => unaryImmShape (.unaryMap ein eout) dfg args imm results
  | .unaryWideningCast ein eout =>
    unaryImmShape (.unaryWideningCast ein eout) dfg args imm results
  | .unaryNarrowingCast ein eout =>
    unaryImmShape (.unaryNarrowingCast ein eout) dfg args imm results
  | .unaryNoResult e =>
    if args.length ≠ 0 then .error (.incorrectArgumentCount 1 (args.length + 1))
    else if results.length ≠ 0 then .error (.incorrectResultCount 0 results.length)
    else InstPattern.intoUnaryMatch (.unaryNoResult e) imm.ty none
  | .binary el er => binaryImmShape (.binary el er) dfg args imm results
  | .binaryMatching e => binaryImmShape (.binaryMatching e) dfg args imm results
  | .binaryPredicate e => binaryImmShape (.binaryPredicate e) dfg args imm results
  | .binaryMatchingNoResult e =>
    if args.length ≠ 1 then .error (.incorrectArgumentCount 2 (args.length + 1))
    else if results.length ≠ 0 then .error (.incorrectResultCount 0 results.length)
    else
      InstPattern.intoBinaryMatch (.binaryMatchingNoResult e)
        (dfg.valueType (args.getD 0 0)) imm.ty none
  | .ternaryMatching ec ei =>
    if args.length ≠ 2 then .error (.incorrectArgumentCount 3 (args.length + 1))
    else if results.length ≠ 1 then .error (.incorrectResultCount 1 results.length)
    else
      InstPattern.intoTernaryMatch (.ternaryMatching ec ei)
        (dfg.valueType (args.getD 0 0)) (dfg.valueType (args.getD 1 0)) imm.ty
        (dfg.valueType (results.getD 0 0))
  | .exactPat expectedArgs expectedResults =>
    if args.length ≠ expectedArgs.length then
      .error (.incorrectArgumentCount expectedArgs.length args.length)
    else if results.length ≠ expectedResults.length then
      .error (.incorrectResultCount expectedResults.length results.length)
    else
      match checkExactArgs dfg expectedArgs args 0 with
      | .error e => .error e
      | .ok _ => checkExactResults dfg expectedResults results 0
  | .anyPat => .ok ()

/-- True of the immediate opcodes (`ImmI1` through `ImmF64`), which may not
be used with a non-immediate argument. -/
def Opcode.isImmOpcode : Opcode → Bool
  | .ImmI1 | .ImmU8 | .ImmI8 | .ImmU16 | .ImmI16 | .ImmU32 | .ImmI32
  | .ImmU64 | .ImmI64 | .ImmFelt | .ImmF64 => true
  | _ => false

/-- `InstTypeChecker::new` (typecheck.rs): the per-opcode type pattern
table. A `GlobalValue` or `Call` opcode on a payload of the wrong variant
panics in the source; those dead arms yield the wildcard pattern here. An
unresolved call signature is the hard validation error naming the missing
import. -/
def instPatternFor (dfg : DataFlowGraph) (node : InstNode) :
    Except ValidationError InstPattern :=
  match node.data.opcode with
  | .Assert | .Assertz => .ok (.unaryNoResult (.exact Ty.I1))
  | .AssertEq => .ok (.binaryMatchingNoResult (.exact Ty.I1))
  | .ImmI1 => .ok (.unary (.exact Ty.I1))
  | .ImmU8 => .ok (.unary (.exact Ty.U8))
  | .ImmI8 => .ok (.unary (.exact Ty.I8))
  | .ImmU16 => .ok (.unary (.exact Ty.U16))
  | .ImmI16 => .ok (.unary (.exact Ty.I16))
  | .ImmU32 => .ok (.unary (.exact Ty.U32))
  | .ImmI32 => .ok (.unary (.exact Ty.I32))
  | .ImmU64 => .ok (.unary (.exact Ty.U64))
  | .ImmI64 => .ok (.unary (.exact Ty.I64))
  | .ImmFelt => .ok (.unary (.exact Ty.Felt))
  | .ImmF64 => .ok (.unary (.exact Ty.F64))
  | .Alloca => .ok (.exactPat [] [.pointer])
  | .MemGrow => .ok (.unary (.exact Ty.U32))
  | .GlobalValue =>
    match node.data with
    | .globalValue _ gv =>
      match dfg.globalValue gv with
      | .symbol _ | .iaddImm _ _ => .ok (.exactPat [] [.pointer])
      | .load _ ty => .ok (.exactPat [] [.exact ty])
    | _ => .ok .anyPat
  | .Load => .ok (.unaryMap .pointer .any)
  | .Store => .ok (.exactPat [.pointer, .any] [])
  | .MemCpy => .ok (.exactPat [.pointer, .pointer, .exact Ty.U32] [])
  | .PtrToInt => .ok (.unaryMap .pointer .int)
  | .IntToPtr => .ok (.unaryMap .uint .pointer)
  | .Cast => .ok (.unaryMap .int .int)
  | .Trunc => .ok (.unaryNarrowingCast .int .int)
  | .Zext => .ok (.unaryWideningCast .int .uint)
  | .Sext => .ok (.unaryWideningCast .int .int)
  | .Test => .ok (.unaryMap .int (.exact Ty.I1))
  | .Select => .ok (.ternaryMatching (.exact Ty.I1) .primitive)
  | .Add | .Sub | .Mul | .Div | .Mod | .DivMod | .Band | .Bor | .Bxor =>
    .ok (.binaryMatching .int)
  | .Exp | .Shl | .Shr | .Rotl | .Rotr => .ok (.binary .int .uint)
  | .Neg | .Inv | .Incr | .Pow2 | .Bnot | .Popcnt => .ok (.unary .int)
  | .Not => .ok (.unary (.exact Ty.I1))
  | .And | .Or | .Xor => .ok (.binaryMatching (.exact Ty.I1))
  | .Eq | .Neq => .ok (.binaryPredicate .primitive)
  | .Gt | .Gte | .Lt | .Lte => .ok (.binaryPredicate .int)
  | .IsOdd => .ok (.exactPat [.int] [.exact Ty.I1])
  | .Min | .Max => .ok (.binaryMatching .int)
  | .Call | .Syscall =>
    match node.data with
    | .call _ callee _ =>
      match dfg.getImport callee with
      | some imp =>
        .ok (.exactPat (imp.signature.params.map fun p => .exact p.ty)
          (imp.signature.results.map fun p => .exact p.ty))
      | none => .error (.invalidInstruction node.key (.unresolvedCallee callee))
    | _ => .ok .anyPat
  | .Br => .ok .anyPat
  | .CondBr => .ok (.exactPat [.exact Ty.I1] [])
  | .Switch => .ok (.exactPat [.exact Ty.U32] [])
  | .Ret => .ok .anyPat
  | .Unreachable => .ok .empty
  | .InlineAsm => .ok .anyPat

/-- `InstTypeChecker::check`/`check_immediate` wrap the pattern-match
failure in `ValidationError::TypeError` after emitting the diagnostic. -/
def liftTypeErr : Except TypeError Unit → Except ValidationError Unit
  | .ok _ => .ok ()
  | .error e => .error (.typeError e)

/-- The successor-argument comparison loop shared by the `Br` and `CondBr`
arms of `TypeCheck::validate` (index-tracked zip of block parameters with
branch arguments). -/
def checkSuccessorArgsLoop (dfg : DataFlowGraph) (successor : Nat) :
    List Nat → List Nat → Nat → Except TypeError Unit
  | [], _, _ => .ok ()
  | _ :: _, [], _ => .ok ()
  | param :: ps, arg :: rest, index =>
    let expected := dfg.valueType param
    let actual := dfg.valueType arg
    if actual ≠ expected then
      .error (.incorrectSuccessorArgumentType successor expected actual index)
    else checkSuccessorArgsLoop dfg successor ps rest (index + 1)

/-- The per-successor check of the `Br`/`CondBr` arms of
`TypeCheck::validate`: argument count against the successor's parameter
count, then pairwise type equality. -/
def checkSuccessorArgs (dfg : DataFlowGraph) (successor : Nat) (args : List Nat) :
    Except TypeError Unit :=
  let expected := dfg.blockParams successor
  if args.length ≠ expected.length then
    .error (.incorrectSuccessorArgumentCount successor expected.length args.length)
  else checkSuccessorArgsLoop dfg successor expected args 0

/-- The arm loop of the `Switch` arm of `TypeCheck::validate`: `seen` maps
each discriminant already encountered to its arm index; a repeated
discriminant fails citing the current and previous arm indices, and an arm
whose successor has block parameters fails citing that successor. -/
def switchArmsLoop (dfg : DataFlowGraph) (instKey : Nat) :
    List (Nat × Nat) → List (Nat × Nat) → Nat → Except ValidationError Unit
  | [], _, _ => .ok ()
  | (key, successor) :: rest, seen, i =>
    match seen.lookup key with
    | some prev => .error (.invalidInstruction instKey (.duplicateDiscriminant i prev))
    | none =>
      if (dfg.blockParams successor).length ≠ 0 then
        .error (.invalidInstruction instKey (.switchSuccessorHasParams successor))
      else switchArmsLoop dfg instKey rest (seen ++ [(key, i)]) (i + 1)

/-- The `Ret` arm of `TypeCheck::validate`: the returned values must match
the function signature's result types in count and (pairwise, by index)
in type. -/
def checkRetArgsLoop (dfg : DataFlowGraph) :
    List AbiParam → List Nat → Nat → Except TypeError Unit
  | [], _, _ => .ok ()
  | _ :: _, [], _ => .ok ()
  | expected :: es, arg :: rest, index =>
    let actual := dfg.valueType arg
    if actual ≠ expected.ty then
      .error (.incorrectArgumentType (.exact expected.ty) actual index)
    else checkRetArgsLoop dfg es rest (index + 1)

/-- One iteration of the `TypeCheck::validate` block loop (typecheck.rs):
builds the instruction's type pattern (propagating the unresolved-callee
error), then dispatches on the instruction payload exactly as the source
match does. -/
def typecheckInst (sig : Signature) (dfg : DataFlowGraph) (node : InstNode) :
    Except ValidationError Unit :=
  let results := dfg.instResults node.key
  match instPatternFor dfg node with
  | .error e => .error e
  | .ok pat =>
    match node.data with
    | .unaryOp op _ arg =>
      if op.isImmOpcode then
        .error (.invalidInstruction node.key .immediateOpcodeRequiresImmediate)
      else liftTypeErr (pat.intoMatch dfg [arg] results)
    | .unaryOpImm op _ imm =>
      if op = .PtrToInt then
        .error (.invalidInstruction node.key .immediateNotAllowed)
      else liftTypeErr (pat.intoMatchWithImmediate dfg [] imm results)
    | .load _ _ ty =>
      if ty.sizeInFelts > 4 then
        .error (.invalidInstruction node.key (.loadTooLarge ty))
      else liftTypeErr (pat.intoMatch dfg node.data.arguments results)
    | .binaryOpImm _ _ arg imm =>
      liftTypeErr (pat.intoMatchWithImmediate dfg [arg] imm results)
    | .primOpImm _ imm args =>
      liftTypeErr (pat.intoMatchWithImmediate dfg args imm results)
    | .globalValue _ _ | .binaryOp _ _ _ _ | .primOp _ _ | .test _ _ _
    | .inlineAsm _ _ _ | .call _ _ _ =>
      liftTypeErr (pat.intoMatch dfg node.data.arguments results)
    | .ret _ args =>
      if args.length ≠ sig.results.length then
        .error (.typeError (.incorrectArgumentCount sig.results.length args.length))
      else liftTypeErr (checkRetArgsLoop dfg sig.results args 0)
    | .retImm _ arg =>
      if sig.results.length ≠ 1 then
        .error (.typeError (.incorrectArgumentCount sig.results.length 1))
      else
        let expected := (sig.results.getD 0 ⟨Ty.I1⟩).ty
        if arg.ty ≠ expected then
          .error (.typeError (.incorrectArgumentType (.exact expected) arg.ty 0))
        else .ok ()
    | .br _ destination args =>
      liftTypeErr (checkSuccessorArgs dfg destination args)
    | .condBr _ cond thenDest elseDest =>
      match pat.intoMatch dfg [cond] results with
      | .error e => .error (.typeError e)
      | .ok _ =>
        match checkSuccessorArgs dfg thenDest.1 thenDest.2 with
        | .error e => .error (.typeError e)
        | .ok _ => liftTypeErr (checkSuccessorArgs dfg elseDest.1 elseDest.2)
    | .switch _ arg arms fallback =>
      match pat.intoMatch dfg [arg] results with
      | .error e => .error (.typeError e)
      | .ok _ =>
        match switchArmsLoop dfg node.key arms [] 0 with
        | .error e => .error e
        | .ok _ =>
          if (dfg.blockParams fallback).length ≠ 0 then
            .error (.invalidInstruction node.key (.switchSuccessorHasParams fallback))
          else .ok ()

/-- `TypeCheck::validate`: checks each instruction of the block in turn,
stopping at (and returning) the first violation. -/
def typecheckBlock (sig : Signature) (dfg : DataFlowGraph) :
    List InstNode → Except ValidationError Unit
  | [] => .ok ()
  | node :: rest =>
    match typecheckInst sig dfg node with
    | .ok _ => typecheckBlock sig dfg rest
    | .error e => .error e

/-- A block is linked (`link.is_linked()`) exactly when it sits in the
graph's layout order. -/
def blockLinked (dfg : DataFlowGraph) (b : Nat) : Bool :=
  dfg.blocks.order.contains b

/-- The successor loop of `BlockValidator::validate` (block.rs): each
jump-table destination must be linked, and no destination may repeat
(`seen` collects the destinations already encountered). -/
def checkSuccessorsLoop (dfg : DataFlowGraph) (blockId termKey : Nat) :
    List JumpTableEntry → List Nat → Except ValidationError Unit
  | [], _ => .ok ()
  | jt :: rest, seen =>
    if ¬blockLinked dfg jt.destination then
      .error (.invalidInstruction termKey (.invalidSuccessor blockId jt.destination))
    else if seen.contains jt.destination then
      .error (.invalidInstruction termKey (.duplicateSuccessor blockId jt.destination))
    else checkSuccessorsLoop dfg blockId termKey rest (seen ++ [jt.destination])

/-- The final loop of `BlockValidator::validate`: no instruction other than
the block's last (identified by its key) may be a terminator. -/
def midTermLoop (blockId termKey : Nat) : List InstNode → Except ValidationError Unit
  | [] => .ok ()
  | node :: rest =>
    if node.data.opcode.isTerminator && node.key ≠ termKey then
      .error (.invalidBlock blockId .midBlockTerminator)
    else midTermLoop blockId termKey rest

/-- The branch-target portion of `BlockValidator::validate`, dispatched on
the terminator's branch classification. -/
def checkTerminatorTargets (dfg : DataFlowGraph) (blockId : Nat) (term : InstNode) :
    Except ValidationError Unit :=
  match term.data.analyzeBranch with
  | .singleDest destination _ =>
    if ¬blockLinked dfg destination then
      .error (.invalidInstruction term.key (.invalidSuccessor blockId destination))
    else .ok ()
  | .multiDest jts =>
    if jts.length = 0 then .error (.invalidInstruction term.key .incompleteBranch)
    else checkSuccessorsLoop dfg blockId term.key jts []
  | .notABranch => .ok ()

/-- `BlockValidator::validate` (block.rs): detached blocks are skipped; a
linked block must be non-empty, end in a terminator whose branch targets
are linked and pairwise distinct, and contain no terminator before the
end. -/
def validateBlock (dfg : DataFlowGraph) (blockId : Nat) (nodes : List InstNode) :
    Except ValidationError Unit :=
  if ¬blockLinked dfg blockId then .ok ()
  else
    match nodes.getLast? with
    | none => .error (.invalidBlock blockId .emptyBlock)
    | some term =>
      if ¬term.data.opcode.isTerminator then .error (.invalidBlock blockId .invalidTerminator)
      else
        match checkTerminatorTargets dfg blockId term with
        | .error e => .error e
        | .ok _ => midTermLoop blockId term.key nodes

/-- The values an instruction uses as branch arguments, collected from its
branch classification (`DefsDominateUses::validate`, block.rs). -/
def branchUses (inst : Instruction) : List Nat :=
  match inst.analyzeBranch with
  | .notABranch => []
  | .singleDest _ args => args
  | .multiDest jts => (jts.map JumpTableEntry.args).flatten

/-- Every value an instruction uses: its operands (including a conditional
branch's condition and call arguments) plus all branch argument lists. The
source collects these into a hash set; the embedding keeps the collection
order (possible duplicates do not change any check's outcome, and set
iteration order is unspecified in the source). -/
def instUses (node : InstNode) : List Nat :=
  node.data.arguments ++ branchUses node.data

/-- The dominance loop of `DefsDominateUses::validate`: a use of a value
defined by the current block's own parameters is trivially dominated;
other block parameters require block-dominates-block, and instruction
results require instruction-dominates-instruction, both queried from the
externally supplied dominator tree (`domB`/`domI`). -/
def domUsesLoop (domB domI : Nat → Nat → Bool) (dfg : DataFlowGraph)
    (currentBlock instKey : Nat) : List Nat → Except ValidationError Unit
  | [] => .ok ()
  | v :: rest =>
    match dfg.valueData v with
    | .param _ _ block =>
      if block = currentBlock then domUsesLoop domB domI dfg currentBlock instKey rest
      else if domB block currentBlock then domUsesLoop domB domI dfg currentBlock instKey rest
      else .error (.invalidInstruction instKey (.notDominated v))
    | .instResult _ inst _ =>
      if domI inst instKey then domUsesLoop domB domI dfg currentBlock instKey rest
      else .error (.invalidInstruction instKey (.notDominated v))

/-- One iteration of the `DefsDominateUses::validate` loop: collects the
instruction's own results and its used values, fails with the self-use
error when they intersect, then checks dominance of every remaining use.
(The source also asserts the result ids are pairwise distinct; that is an
unrecoverable builder-defect panic, not a validation outcome.) -/
def defsDominateUsesInst (domB domI : Nat → Nat → Bool) (dfg : DataFlowGraph)
    (currentBlock : Nat) (node : InstNode) : Except ValidationError Unit :=
  let defs := dfg.instResults node.key
  let uses := instUses node
  if defs.any (fun d => uses.contains d) then
    .error (.invalidInstruction node.key .selfUse)
  else domUsesLoop domB domI dfg currentBlock node.key uses

/-- `DefsDominateUses::validate` (block.rs): runs the per-instruction check
over the block's instructions, stopping at the first violation. -/
def defsDominateUses (domB domI : Nat → Nat → Bool) (dfg : DataFlowGraph)
    (currentBlock : Nat) : List InstNode → Except ValidationError Unit
  | [] => .ok ()
  | node :: rest =>
    match defsDominateUsesInst domB domI dfg currentBlock node with
    | .ok _ => defsDominateUses domB domI dfg currentBlock rest
    | .error e => .error e

/-! ## Shared lemmas -/

/-- Lookup distributes over association-list append. -/
theorem lookup_append {α β : Type} [BEq α] (l1 l2 : List (α × β)) (k : α) :
    (l1 ++ l2).lookup k =
      match l1.lookup k with
      | some v => some v
      | none => l2.lookup k := by
  induction l1 with
  | nil => simp [List.lookup]
  | cons hd tl ih =>
    obtain ⟨a, b⟩ := hd
    by_cases h : k == a
    · simp [List.lookup, h]
    · simp only [List.cons_append, List.lookup]
      rw [Bool.not_eq_true] at h
      simp [h, ih]

/-! ## C8: branch analysis classification -/

/-- C8: `analyze_branch` classifies every instruction as exactly one of:
not-a-branch for every non-branch instruction; single-destination with the
branch's destination and argument list for an unconditional branch;
multi-destination with exactly two (destination, argument-list) entries —
then first, else second — for a conditional branch; and multi-destination
with one empty-argument entry per switch arm in order followed by one
empty-argument entry for the default arm, for a switch. -/
theorem analyze_branch_classification :
    (∀ (op : Opcode) (dest : Nat) (args : List Nat),
      (Instruction.br op dest args).analyzeBranch = .singleDest dest args) ∧
    (∀ (op : Opcode) (cond td ed : Nat) (ta ea : List Nat),
      (Instruction.condBr op cond (td, ta) (ed, ea)).analyzeBranch =
        .multiDest [⟨td, ta⟩, ⟨ed, ea⟩]) ∧
    (∀ (op : Opcode) (arg : Nat) (arms : List (Nat × Nat)) (fb : Nat),
      (Instruction.switch op arg arms fb).analyzeBranch =
        .multiDest ((arms.map fun a => JumpTableEntry.mk a.2 []) ++ [⟨fb, []⟩])) ∧
    (∀ inst : Instruction, inst.isBranchForm = false → inst.analyzeBranch = .notABranch) := by
  refine ⟨fun _ _ _ => rfl, fun _ _ _ _ _ _ => rfl, fun _ _ _ _ => rfl, ?_⟩
  intro inst h
  cases inst <;> simp_all [Instruction.isBranchForm, Instruction.analyzeBranch]

/-- Witness for C8: a concrete non-branch instruction (a return) is
classified not-a-branch via the theorem. -/
theorem analyze_branch_classification_witness :
    (Instruction.ret Opcode.Ret [3]).isBranchForm = false ∧
    (Instruction.ret Opcode.Ret [3]).analyzeBranch = .notABranch :=
  ⟨rfl, analyze_branch_classification.2.2.2 (Instruction.ret Opcode.Ret [3]) rfl⟩

/-! ## C6: import_function idempotence and conflict atomicity -/

/-- C6: importing a (module, name, signature) not yet in the import table
inserts it and returns its identifier; importing it again with an equal
signature succeeds, returns the same identifier, and leaves the graph
unchanged; importing the same (module, name) with a different signature
fails with a `SymbolConflictError` naming that identifier and leaves the
graph (hence the existing entry) unchanged. -/
theorem import_function_idempotent_atomic (dfg : DataFlowGraph) (m f : String)
    (sig sig2 : Signature) (hnew : dfg.imports.lookup ⟨m, f⟩ = none)
    (hne : sig2 ≠ sig) :
    (dfg.importFunction m f sig).1 = .ok ⟨m, f⟩ ∧
    (dfg.importFunction m f sig).2.getImport ⟨m, f⟩ = some ⟨⟨m, f⟩, sig⟩ ∧
    ((dfg.importFunction m f sig).2.importFunction m f sig).1 = .ok ⟨m, f⟩ ∧
    ((dfg.importFunction m f sig).2.importFunction m f sig).2 =
      (dfg.importFunction m f sig).2 ∧
    ((dfg.importFunction m f sig).2.importFunction m f sig2).1 =
      .error ⟨⟨m, f⟩⟩ ∧
    ((dfg.importFunction m f sig).2.importFunction m f sig2).2 =
      (dfg.importFunction m f sig).2 := by
  have hsymm : sig ≠ sig2 := fun h => hne h.symm
  have hlook :
      (dfg.imports ++
        [((⟨m, f⟩ : FunctionIdent), (⟨⟨m, f⟩, sig⟩ : ExternalFunction))]).lookup
          (⟨m, f⟩ : FunctionIdent) =
        some (⟨⟨m, f⟩, sig⟩ : ExternalFunction) := by
    rw [lookup_append, hnew]
    simp [List.lookup]
  refine ⟨?_, ?_, ?_, ?_, ?_, ?_⟩ <;>
    simp [DataFlowGraph.importFunction, DataFlowGraph.getImport, hnew, hlook, hne, hsymm]

/-- Witness for C6: the scenario run on a concrete empty graph with two
distinct signatures. -/
theorem import_function_idempotent_atomic_witness :
    let dfg : DataFlowGraph :=
      ⟨0, OrderedArenaMap.new, ArenaMap.new, [], [], [], []⟩
    let sig : Signature := ⟨[], []⟩
    let sig2 : Signature := ⟨[], [⟨Ty.I1⟩]⟩
    (dfg.importFunction "std" "f" sig).1 = .ok ⟨"std", "f"⟩ ∧
    (dfg.importFunction "std" "f" sig).2.getImport ⟨"std", "f"⟩ =
      some ⟨⟨"std", "f"⟩, sig⟩ ∧
    ((dfg.importFunction "std" "f" sig).2.importFunction "std" "f" sig).1 =
      .ok ⟨"std", "f"⟩ ∧
    ((dfg.importFunction "std" "f" sig).2.importFunction "std" "f" sig).2 =
      (dfg.importFunction "std" "f" sig).2 ∧
    ((dfg.importFunction "std" "f" sig).2.importFunction "std" "f" sig2).1 =
      .error ⟨⟨"std", "f"⟩⟩ ∧
    ((dfg.importFunction "std" "f" sig).2.importFunction "std" "f" sig2).2 =
      (dfg.importFunction "std" "f" sig).2 :=
  import_function_idempotent_atomic _ "std" "f" _ _ rfl (by decide)

/-! ## C10: detaching a block is a pure layout unlink -/

/-- C10: for a block `b` linked in the graph, `detach_block b` changes only
the layout order: `is_block_inserted`, the block's data, its parameter
list, and its instruction list answer exactly as before (in particular
`is_block_inserted b` is still `true`), while layout iteration no longer
yields `b`. -/
theorem detach_block_frame (dfg : DataFlowGraph) (b : Nat)
    (hbound : (dfg.blocks.map.get b).isSome = true)
    (hmem : b ∈ dfg.blocks.order) (hnd : dfg.blocks.order.Nodup) :
    (dfg.detachBlock b).isBlockInserted b = dfg.isBlockInserted b ∧
    dfg.isBlockInserted b = true ∧
    (dfg.detachBlock b).blockGet b = dfg.blockGet b ∧
    (dfg.detachBlock b).blockParams b = dfg.blockParams b ∧
    (dfg.detachBlock b).blockInsts b = dfg.blockInsts b ∧
    b ∈ dfg.blocksKeys ∧
    b ∉ (dfg.detachBlock b).blocksKeys := by
  have hrm : (dfg.blocks.remove b) = ⟨dfg.blocks.map, dfg.blocks.order.erase b⟩ := by
    simp [OrderedArenaMap.remove, OrderedArenaMap.get, hbound]
  refine ⟨?_, ?_, ?_, ?_, ?_, hmem, ?_⟩
  · simp [DataFlowGraph.detachBlock, DataFlowGraph.isBlockInserted, hrm,
      OrderedArenaMap.contains]
  · simp [DataFlowGraph.isBlockInserted, OrderedArenaMap.contains, ArenaMap.contains,
      ArenaMap.get] at hbound ⊢
    exact hbound
  · simp [DataFlowGraph.detachBlock, DataFlowGraph.blockGet, hrm, OrderedArenaMap.get]
  · simp [DataFlowGraph.detachBlock, DataFlowGraph.blockParams, hrm, OrderedArenaMap.get]
  · simp [DataFlowGraph.detachBlock, DataFlowGraph.blockInsts, hrm, OrderedArenaMap.get]
  · simp [DataFlowGraph.detachBlock, DataFlowGraph.blocksKeys, hrm,
      OrderedArenaMap.keysList]
    intro hmem'
    exact absurd rfl ((List.Nodup.mem_erase_iff hnd).mp hmem').1

/-- Witness for C10: a two-block graph; detaching the second block keeps
every lookup answer while removing it from iteration. -/
theorem detach_block_frame_witness :
    let dfg : DataFlowGraph :=
      ⟨0, ⟨⟨[some ⟨0, [], []⟩, some ⟨1, [], []⟩]⟩, [0, 1]⟩,
        ArenaMap.new, [], [], [], []⟩
    (dfg.detachBlock 1).isBlockInserted 1 = dfg.isBlockInserted 1 ∧
    dfg.isBlockInserted 1 = true ∧
    (dfg.detachBlock 1).blockGet 1 = dfg.blockGet 1 ∧
    (dfg.detachBlock 1).blockParams 1 = dfg.blockParams 1 ∧
    (dfg.detachBlock 1).blockInsts 1 = dfg.blockInsts 1 ∧
    1 ∈ dfg.blocksKeys ∧
    1 ∉ (dfg.detachBlock 1).blocksKeys :=
  detach_block_frame _ 1 (by decide) (by decide) (by decide)

/-! ## C2: cloning an OrderedArenaMap does not replay list order -/

/-- A map built with `push` then `create` + `insert_before`: its list order
is `[1, 0]` (key 1 linked before key 0). -/
def c2InsertBeforeMap : OrderedArenaMap Nat :=
  let s0 := (OrderedArenaMap.new (V := Nat)).push 10
  let s1 := s0.2.create
  s1.2.insertBefore s1.1 s0.1 20

/-- A map built with two `push`es, then `remove` of the first key: its
linked keys are `[1]` while key 0 remains bound (but unlinked) in the
arena. -/
def c2RemoveMap : OrderedArenaMap Nat :=
  let s0 := (OrderedArenaMap.new (V := Nat)).push 10
  let s1 := s0.2.push 20
  s1.2.remove s0.1

/-- C2 (code bug): `Clone for OrderedArenaMap` replays the underlying
arena map in key-index order, not list order, and re-links keys that were
removed from the list (removal only unlinks; the binding stays in the
arena map). Concretely: a map whose list order is `[1, 0]` (built with
`insert_before`) clones to list order `[0, 1]`, and a map whose linked
keys are `[1]` after a removal clones to linked keys `[0, 1]` — the clone
neither preserves relative order nor the linked-key set, contradicting
both the specified behavior and the source's own `remove` documentation
("to perform early garbage collection, you can clone the map, and drop
the original"). -/
theorem clone_ordered_arena_map_divergence :
    c2InsertBeforeMap.keysList = [1, 0] ∧
    c2InsertBeforeMap.clone.keysList = [0, 1] ∧
    c2RemoveMap.keysList = [1] ∧
    c2RemoveMap.clone.keysList = [0, 1] ∧
    c2RemoveMap.clone.contains 0 = true := by decide

/-! ## C1: cast width laws -/

/-- `check`/`check_immediate` succeed exactly when the underlying pattern
match does. -/
theorem liftTypeErr_ok (e : Except TypeError Unit) :
    liftTypeErr e = .ok () ↔ e = .ok () := by
  cases e with
  | ok u => cases u; simp [liftTypeErr]
  | error err => simp [liftTypeErr]

/-- The widening-cast shape accepts exactly the non-strict width ordering:
given both type patterns match, it succeeds iff the operand width is at
most the result width (the source errors only on `size_in_bits` strictly
decreasing). -/
theorem intoUnaryMatch_widening (pin pout : TypePattern) (tin tout : Ty)
    (hin : pin.matches tin = true) (hout : pout.matches tout = true) :
    (InstPattern.unaryWideningCast pin pout).intoUnaryMatch tin (some tout) = .ok () ↔
      tin.sizeInBits ≤ tout.sizeInBits := by
  simp only [InstPattern.intoUnaryMatch, hin, hout]
  by_cases h : tin.sizeInBits > tout.sizeInBits <;> simp [h] <;> omega

/-- The narrowing-cast shape accepts exactly the non-strict reverse width
ordering: given both type patterns match, it succeeds iff the result width
is at most the operand width. -/
theorem intoUnaryMatch_narrowing (pin pout : TypePattern) (tin tout : Ty)
    (hin : pin.matches tin = true) (hout : pout.matches tout = true) :
    (InstPattern.unaryNarrowingCast pin pout).intoUnaryMatch tin (some tout) = .ok () ↔
      tout.sizeInBits ≤ tin.sizeInBits := by
  simp only [InstPattern.intoUnaryMatch, hin, hout]
  by_cases h : tin.sizeInBits < tout.sizeInBits <;> simp [h] <;> omega

/-- C1 (amended): for the type-checking rule on a unary cast instruction
with one result, validation succeeds iff the operand type's bit width is
at most (`zext`/`sext`) respectively at least (`trunc`) the result
type's bit width — the comparisons are non-strict, so an operand and
result of equal bit width pass both cast kinds. -/
theorem cast_width_laws (sig : Signature) (dfg : DataFlowGraph)
    (key blk : Nat) (lnk : Bool) (ov : Overflow) (a r : Nat)
    (hres : dfg.instResults key = [r])
    (hin : (dfg.valueType a).isInteger = true) :
    ((dfg.valueType r).isUnsignedInteger = true →
      (typecheckInst sig dfg ⟨key, blk, lnk, .unaryOp .Zext ov a⟩ = .ok () ↔
        (dfg.valueType a).sizeInBits ≤ (dfg.valueType r).sizeInBits)) ∧
    ((dfg.valueType r).isInteger = true →
      ((typecheckInst sig dfg ⟨key, blk, lnk, .unaryOp .Sext ov a⟩ = .ok () ↔
        (dfg.valueType a).sizeInBits ≤ (dfg.valueType r).sizeInBits) ∧
       (typecheckInst sig dfg ⟨key, blk, lnk, .unaryOp .Trunc ov a⟩ = .ok () ↔
        (dfg.valueType r).sizeInBits ≤ (dfg.valueType a).sizeInBits))) := by
  have hz : typecheckInst sig dfg ⟨key, blk, lnk, .unaryOp .Zext ov a⟩ =
      liftTypeErr ((InstPattern.unaryWideningCast .int .uint).intoUnaryMatch
        (dfg.valueType a) (some (dfg.valueType r))) := by
    simp [typecheckInst, instPatternFor, Instruction.opcode, Opcode.isImmOpcode,
      InstPattern.intoMatch, unaryShape, hres]
  have hs : typecheckInst sig dfg ⟨key, blk, lnk, .unaryOp .Sext ov a⟩ =
      liftTypeErr ((InstPattern.unaryWideningCast .int .int).intoUnaryMatch
        (dfg.valueType a) (some (dfg.valueType r))) := by
    simp [typecheckInst, instPatternFor, Instruction.opcode, Opcode.isImmOpcode,
      InstPattern.intoMatch, unaryShape, hres]
  have ht : typecheckInst sig dfg ⟨key, blk, lnk, .unaryOp .Trunc ov a⟩ =
      liftTypeErr ((InstPattern.unaryNarrowingCast .int .int).intoUnaryMatch
        (dfg.valueType a) (some (dfg.valueType r))) := by
    simp [typecheckInst, instPatternFor, Instruction.opcode, Opcode.isImmOpcode,
      InstPattern.intoMatch, unaryShape, hres]
  refine ⟨fun huout => ?_, fun hiout => ⟨?_, ?_⟩⟩
  · rw [hz, liftTypeErr_ok]
    exact intoUnaryMatch_widening .int .uint _ _ hin huout
  · rw [hs, liftTypeErr_ok]
    exact intoUnaryMatch_widening .int .int _ _ hin hiout
  · rw [ht, liftTypeErr_ok]
    exact intoUnaryMatch_narrowing .int .int _ _ hin hiout

/-- A graph holding one `u32`-typed argument value (id 0) and one
instruction (key 1) whose single result value (id 1) is also `u32`. -/
def c1Dfg : DataFlowGraph :=
  ⟨0, OrderedArenaMap.new, ArenaMap.new, [(1, [1])],
    [ValueData.param Ty.U32 0 0, ValueData.instResult Ty.U32 1 0], [], []⟩

/-- C1 counterexample: the claim requires equal-width pairs to fail both
cast kinds, but a `zext` from `u32` to `u32` and a `trunc` from `u32` to
`u32` both pass type checking even though neither width is strictly less
(resp. greater) than the other. -/
theorem cast_width_equal_passes :
    typecheckInst ⟨[], []⟩ c1Dfg ⟨1, 0, true, .unaryOp .Zext .Unchecked 0⟩ = .ok () ∧
    typecheckInst ⟨[], []⟩ c1Dfg ⟨1, 0, true, .unaryOp .Trunc .Unchecked 0⟩ = .ok () ∧
    c1Dfg.valueType 0 = Ty.U32 ∧ c1Dfg.valueType 1 = Ty.U32 ∧
    ¬(Ty.U32.sizeInBits < Ty.U32.sizeInBits) ∧
    ¬(Ty.U32.sizeInBits > Ty.U32.sizeInBits) :=
  ⟨rfl, rfl, rfl, rfl, by decide, by decide⟩

/-- A graph holding one `u8`-typed argument value and one instruction
(key 1) with a single `u32`-typed result value. -/
def c1WitnessDfg : DataFlowGraph :=
  ⟨0, OrderedArenaMap.new, ArenaMap.new, [(1, [1])],
    [ValueData.param Ty.U8 0 0, ValueData.instResult Ty.U32 1 0], [], []⟩

/-- Witness for C1: the amended law applied to a concrete `zext u8 → u32`,
whose validation outcome is equivalent to `8 ≤ 32`. -/
theorem cast_width_laws_witness :
    c1WitnessDfg.instResults 1 = [1] ∧
    (c1WitnessDfg.valueType 0).isInteger = true ∧
    (c1WitnessDfg.valueType 1).isUnsignedInteger = true ∧
    (typecheckInst ⟨[], []⟩ c1WitnessDfg ⟨1, 0, true, .unaryOp .Zext .Unchecked 0⟩ =
        .ok () ↔
      (c1WitnessDfg.valueType 0).sizeInBits ≤ (c1WitnessDfg.valueType 1).sizeInBits) :=
  ⟨rfl, rfl, rfl,
    (cast_width_laws ⟨[], []⟩ c1WitnessDfg 1 0 true .Unchecked 0 1 rfl rfl).1 rfl⟩

/-! ## C4: self-use rejection -/

/-- C4: for any instruction whose own result values intersect the values it
uses as operands (including branch condition and branch/call argument
lists), the definition-dominates-use check of that instruction fails with
the self-use error, regardless of opcode and of the dominance oracle; and
the whole rule, run on any block containing that instruction after
instructions that pass, fails with that same error. -/
theorem self_use_rejected (domB domI : Nat → Nat → Bool) (dfg : DataFlowGraph)
    (currentBlock : Nat) (node : InstNode) (v : Nat)
    (hdef : v ∈ dfg.instResults node.key) (huse : v ∈ instUses node) :
    defsDominateUsesInst domB domI dfg currentBlock node =
      .error (.invalidInstruction node.key .selfUse) ∧
    (∀ pre suf, (∀ p ∈ pre, defsDominateUsesInst domB domI dfg currentBlock p = .ok ()) →
      defsDominateUses domB domI dfg currentBlock (pre ++ node :: suf) =
        .error (.invalidInstruction node.key .selfUse)) := by
  have hany : (dfg.instResults node.key).any (fun d => (instUses node).contains d) = true := by
    rw [List.any_eq_true]
    refine ⟨v, hdef, ?_⟩
    simpa using huse
  have hinst : defsDominateUsesInst domB domI dfg currentBlock node =
      .error (.invalidInstruction node.key .selfUse) := by
    simp only [defsDominateUsesInst, hany]
    simp
  refine ⟨hinst, ?_⟩
  intro pre suf
  induction pre with
  | nil => intro _; simp [defsDominateUses, hinst]
  | cons p ps ih =>
    intro hpre
    have hp := hpre p (by simp)
    simp only [List.cons_append, defsDominateUses, hp]
    exact ih fun q hq => hpre q (by simp [hq])

/-- Witness for C4: a concrete `add` instruction consuming its own result
value fails both the per-instruction check and the rule over its block. -/
theorem self_use_rejected_witness :
    let node : InstNode := ⟨0, 0, true, .binaryOp .Add .Unchecked 0 1⟩
    let dfg : DataFlowGraph := ⟨0, OrderedArenaMap.new, ArenaMap.new, [(0, [0])],
      [ValueData.instResult Ty.U32 0 0, ValueData.param Ty.U32 0 1], [], []⟩
    0 ∈ dfg.instResults node.key ∧ 0 ∈ instUses node ∧
    defsDominateUsesInst (fun _ _ => true) (fun _ _ => true) dfg 0 node =
      .error (.invalidInstruction 0 .selfUse) ∧
    defsDominateUses (fun _ _ => true) (fun _ _ => true) dfg 0 [node] =
      .error (.invalidInstruction 0 .selfUse) := by
  refine ⟨by decide, by decide, ?_, ?_⟩
  · exact (self_use_rejected _ _ _ _ _ 0 (by decide) (by decide)).1
  · exact (self_use_rejected _ _ _ _ _ 0 (by decide) (by decide)).2 [] [] (by simp)

/-! ## C3: block well-formedness -/

/-- The mid-block terminator sweep succeeds exactly when no instruction is
a terminator with a key other than the block terminator's. -/
theorem midTermLoop_ok (blockId termKey : Nat) (nodes : List InstNode) :
    midTermLoop blockId termKey nodes = .ok () ↔
      ∀ n ∈ nodes, ¬(n.data.opcode.isTerminator = true ∧ n.key ≠ termKey) := by
  induction nodes with
  | nil => simp [midTermLoop]
  | cons hd tl ih =>
    simp only [midTermLoop]
    split
    · rename_i h
      simp only [Bool.and_eq_true, decide_eq_true_eq] at h
      constructor
      · intro hfalse; cases hfalse
      · intro hall
        exact absurd h (hall hd (List.mem_cons_self hd tl))
    · rename_i h
      rw [ih]
      simp only [Bool.and_eq_true, decide_eq_true_eq, not_and] at h
      constructor
      · intro hall n hn
        rcases List.mem_cons.mp hn with rfl | hn'
        · rintro ⟨h1, h2⟩
          exact h h1 h2
        · exact hall n hn'
      · intro hall n hn
        exact hall n (List.mem_cons_of_mem hd hn)

/-- The successor sweep succeeds exactly when every destination is linked,
no destination repeats, and no destination collides with the accumulated
`seen` list. -/
theorem checkSuccessorsLoop_ok (dfg : DataFlowGraph) (blockId termKey : Nat) :
    ∀ (jts : List JumpTableEntry) (seen : List Nat),
      checkSuccessorsLoop dfg blockId termKey jts seen = .ok () ↔
        ((∀ jt ∈ jts, blockLinked dfg jt.destination = true) ∧
         (jts.map JumpTableEntry.destination).Nodup ∧
         (∀ jt ∈ jts, jt.destination ∉ seen)) := by
  intro jts
  induction jts with
  | nil => intro seen; simp [checkSuccessorsLoop]
  | cons jt rest ih =>
    intro seen
    simp only [checkSuccessorsLoop]
    split
    · rename_i h
      constructor
      · intro hfalse; cases hfalse
      · rintro ⟨h1, -, -⟩
        exact absurd (h1 jt (List.mem_cons_self jt rest)) h
    · rename_i hlk
      have hlinked : blockLinked dfg jt.destination = true := not_not.mp hlk
      split
      · rename_i hc
        have hseen : jt.destination ∈ seen := by simpa using hc
        constructor
        · intro hfalse; cases hfalse
        · rintro ⟨-, -, h3⟩
          exact absurd hseen (h3 jt (List.mem_cons_self jt rest))
      · rename_i hc
        have hnotmem : jt.destination ∉ seen := fun hmem => hc (by simpa using hmem)
        rw [ih (seen ++ [jt.destination])]
        constructor
        · rintro ⟨h1, h2, h3⟩
          refine ⟨?_, ?_, ?_⟩
          · intro x hx
            rcases List.mem_cons.mp hx with rfl | hx'
            · exact hlinked
            · exact h1 x hx'
          · rw [List.map_cons, List.nodup_cons]
            refine ⟨fun hmem => ?_, h2⟩
            rcases List.mem_map.mp hmem with ⟨y, hy, hyd⟩
            exact (h3 y hy) (by simp [hyd])
          · intro x hx
            rcases List.mem_cons.mp hx with rfl | hx'
            · exact hnotmem
            · exact fun hmem => (h3 x hx') (by simp [hmem])
        · rintro ⟨h1, h2, h3⟩
          rw [List.map_cons, List.nodup_cons] at h2
          refine ⟨fun x hx => h1 x (List.mem_cons_of_mem jt hx), h2.2, ?_⟩
          intro x hx hmem
          rcases List.mem_append.mp hmem with hmem1 | hmem2
          · exact h3 x (List.mem_cons_of_mem jt hx) hmem1
          · have hxd : x.destination = jt.destination := by simpa using hmem2
            exact h2.1 (by
              rw [← hxd]
              exact List.mem_map_of_mem JumpTableEntry.destination hx)

/-- The branch-target check succeeds exactly under the claim's conditions
on the terminator's branch classification. -/
theorem checkTerminatorTargets_ok (dfg : DataFlowGraph) (blockId : Nat)
    (term : InstNode) :
    checkTerminatorTargets dfg blockId term = .ok () ↔
      (match term.data.analyzeBranch with
       | .notABranch => True
       | .singleDest d _ => blockLinked dfg d = true
       | .multiDest jts =>
         jts ≠ [] ∧ (∀ jt ∈ jts, blockLinked dfg jt.destination = true) ∧
           (jts.map JumpTableEntry.destination).Nodup) := by
  cases hbr : term.data.analyzeBranch with
  | notABranch => simp [checkTerminatorTargets, hbr]
  | singleDest d args =>
    simp only [checkTerminatorTargets, hbr]
    by_cases hlink : blockLinked dfg d
    · simp [hlink]
    · simp [hlink]
  | multiDest jts =>
    simp only [checkTerminatorTargets, hbr]
    by_cases hnil : jts.length = 0
    · have hjts : jts = [] := List.length_eq_zero.mp hnil
      subst hjts
      simp
    · rw [if_neg hnil, checkSuccessorsLoop_ok]
      have hne : jts ≠ [] := fun h => hnil (by simp [h])
      simp [hne]

/-- With pairwise-distinct instruction keys and `term` the block's last
instruction, "no terminator with a key other than the last's" is the same
as "no instruction before the last is a terminator". -/
theorem midterm_iff_dropLast (nodes : List InstNode) (term : InstNode)
    (hterm : nodes.getLast? = some term)
    (hkeys : (nodes.map InstNode.key).Nodup) :
    (∀ n ∈ nodes, ¬(n.data.opcode.isTerminator = true ∧ n.key ≠ term.key)) ↔
      ∀ n ∈ nodes.dropLast, n.data.opcode.isTerminator = false := by
  have hnil : nodes ≠ [] := by
    intro h; rw [h] at hterm; cases hterm
  have hlast : nodes.getLast hnil = term := by
    have := List.getLast?_eq_getLast nodes hnil
    rw [hterm] at this
    exact (Option.some_inj.mp this).symm
  have hsplit : nodes.dropLast ++ [term] = nodes := by
    rw [← hlast]
    exact List.dropLast_append_getLast hnil
  constructor
  · intro hall n hn
    by_contra hbad
    rw [Bool.not_eq_false] at hbad
    have hne : n.key ≠ term.key := by
      intro hkey
      have hmap : (nodes.map InstNode.key) =
          (nodes.dropLast.map InstNode.key) ++ [term.key] := by
        rw [← hsplit]; simp
      rw [hmap] at hkeys
      have hdisj := (List.nodup_append.mp hkeys).2.2
      exact hdisj (List.mem_map_of_mem InstNode.key hn) (by simp [hkey])
    exact hall n (by rw [← hsplit]; exact List.mem_append_left _ hn) ⟨hbad, hne⟩
  · intro hall n hn
    rw [← hsplit] at hn
    rcases List.mem_append.mp hn with hpre | hlast'
    · rintro ⟨hterm', -⟩
      rw [hall n hpre] at hterm'
      cases hterm'
    · have : n = term := by simpa using hlast'
      subst this
      rintro ⟨-, hne⟩
      exact hne rfl

/-- C3: the block well-formedness rule returns Ok for every detached block;
for a linked block it returns Ok iff the instruction sequence is non-empty,
its last instruction's opcode is a terminator, no other instruction is a
terminator, a single-destination terminator's destination is linked, and a
multi-destination terminator has at least one successor, all successors
linked and pairwise distinct (otherwise it returns the corresponding
structural error). -/
theorem block_wellformedness (dfg : DataFlowGraph) (blockId : Nat)
    (nodes : List InstNode) (hkeys : (nodes.map InstNode.key).Nodup) :
    validateBlock dfg blockId nodes = .ok () ↔
      (blockLinked dfg blockId = false ∨
       ∃ term, nodes.getLast? = some term ∧
         term.data.opcode.isTerminator = true ∧
         (∀ n ∈ nodes.dropLast, n.data.opcode.isTerminator = false) ∧
         (match term.data.analyzeBranch with
          | .notABranch => True
          | .singleDest d _ => blockLinked dfg d = true
          | .multiDest jts =>
            jts ≠ [] ∧ (∀ jt ∈ jts, blockLinked dfg jt.destination = true) ∧
              (jts.map JumpTableEntry.destination).Nodup)) := by
  by_cases hlink : blockLinked dfg blockId
  · rw [validateBlock, if_neg (not_not.mpr hlink)]
    cases hterm : nodes.getLast? with
    | none =>
      dsimp only
      constructor
      · intro hfalse; cases hfalse
      · rintro (hleft | ⟨term, hterm', -⟩)
        · rw [hlink] at hleft; cases hleft
        · exact Option.noConfusion hterm'
    | some term =>
      dsimp only
      by_cases histerm : term.data.opcode.isTerminator
      · rw [if_neg (not_not.mpr histerm)]
        cases hc : checkTerminatorTargets dfg blockId term with
        | error e =>
          constructor
          · intro hfalse; cases hfalse
          · rintro (hleft | ⟨term', hterm', -, -, hbr⟩)
            · rw [hlink] at hleft; cases hleft
            · obtain rfl := Option.some_inj.mp hterm'
              have hok := (checkTerminatorTargets_ok dfg blockId term).mpr hbr
              rw [hc] at hok; cases hok
        | ok u =>
          cases u
          rw [midTermLoop_ok, midterm_iff_dropLast nodes term hterm hkeys]
          constructor
          · intro hmid
            exact Or.inr ⟨term, rfl, histerm, hmid,
              (checkTerminatorTargets_ok dfg blockId term).mp hc⟩
          · rintro (hleft | ⟨term', hterm', -, hmid, -⟩)
            · rw [hlink] at hleft; cases hleft
            · obtain rfl := Option.some_inj.mp hterm'
              exact hmid
      · rw [if_pos histerm]
        constructor
        · intro hfalse; cases hfalse
        · rintro (hleft | ⟨term', hterm', histerm', -, -⟩)
          · rw [hlink] at hleft; cases hleft
          · obtain rfl := Option.some_inj.mp hterm'
            exact absurd histerm' histerm
  · rw [validateBlock, if_pos hlink]
    simp only [Bool.not_eq_true] at hlink
    simp [hlink]

/-- Witness for C3: a linked single-block graph whose block holds one `ret`
instruction satisfies both sides of the equivalence. -/
theorem block_wellformedness_witness :
    let node : InstNode := ⟨0, 0, true, .ret .Ret []⟩
    let dfg : DataFlowGraph :=
      ⟨0, ⟨⟨[some ⟨0, [], [node]⟩]⟩, [0]⟩, ArenaMap.new, [], [], [], []⟩
    ([node].map InstNode.key).Nodup ∧
    (validateBlock dfg 0 [node] = .ok () ↔
      (blockLinked dfg 0 = false ∨
       ∃ term, [node].getLast? = some term ∧
         term.data.opcode.isTerminator = true ∧
         (∀ n ∈ [node].dropLast, n.data.opcode.isTerminator = false) ∧
         (match term.data.analyzeBranch with
          | .notABranch => True
          | .singleDest d _ => blockLinked dfg d = true
          | .multiDest jts =>
            jts ≠ [] ∧ (∀ jt ∈ jts, blockLinked dfg jt.destination = true) ∧
              (jts.map JumpTableEntry.destination).Nodup))) :=
  ⟨by simp, block_wellformedness _ 0 _ (by simp)⟩

/-! ## C7: switch arm uniqueness -/

/-- Lookup in an association list extended with one binding is empty iff it
was empty before and the key differs from the new binding's. -/
theorem lookup_append_single_none (seen : List (Nat × Nat)) (k v a : Nat) :
    (seen ++ [(k, v)]).lookup a = none ↔ (seen.lookup a = none ∧ a ≠ k) := by
  rw [lookup_append]
  cases h : seen.lookup a with
  | some w => simp
  | none =>
    by_cases hak : a = k
    · subst hak; simp [List.lookup]
    · have hbeq : (a == k) = false := beq_eq_false_iff_ne.mpr hak
      simp [List.lookup, hbeq, hak]

/-- The switch-arm loop succeeds exactly when every arm's successor has no
parameters, the arm discriminants are pairwise distinct, and no
discriminant collides with the accumulated `seen` map. -/
theorem switchArmsLoop_ok (dfg : DataFlowGraph) (instKey : Nat) :
    ∀ (arms : List (Nat × Nat)) (seen : List (Nat × Nat)) (i : Nat),
      switchArmsLoop dfg instKey arms seen i = .ok () ↔
        ((∀ a ∈ arms, dfg.blockParams a.2 = []) ∧
         (arms.map Prod.fst).Nodup ∧
         (∀ a ∈ arms, seen.lookup a.1 = none)) := by
  intro arms
  induction arms with
  | nil => intro seen i; simp [switchArmsLoop]
  | cons hd rest ih =>
    intro seen i
    obtain ⟨k, s⟩ := hd
    simp only [switchArmsLoop]
    split
    · rename_i prev hlk
      constructor
      · intro hfalse; cases hfalse
      · rintro ⟨-, -, h3⟩
        have h := h3 (k, s) (List.mem_cons_self _ _)
        simp only at h
        rw [h] at hlk
        exact Option.noConfusion hlk
    · rename_i hlk
      split
      · rename_i hp
        constructor
        · intro hfalse; cases hfalse
        · rintro ⟨h1, -, -⟩
          have h := h1 (k, s) (List.mem_cons_self _ _)
          simp only at h
          rw [h] at hp
          simp at hp
      · rename_i hp
        have hp0 : dfg.blockParams s = [] := by
          simp only [ne_eq, not_not] at hp
          exact List.length_eq_zero.mp hp
        rw [ih (seen ++ [(k, i)]) (i + 1)]
        constructor
        · rintro ⟨h1, h2, h3⟩
          refine ⟨?_, ?_, ?_⟩
          · intro a ha
            rcases List.mem_cons.mp ha with rfl | ha'
            · exact hp0
            · exact h1 a ha'
          · rw [List.map_cons, List.nodup_cons]
            refine ⟨fun hmem => ?_, h2⟩
            rcases List.mem_map.mp hmem with ⟨y, hy, hyk⟩
            exact absurd ((lookup_append_single_none seen k i y.1).mp (h3 y hy)).2 (by simp [hyk])
          · intro a ha
            rcases List.mem_cons.mp ha with rfl | ha'
            · exact hlk
            · exact ((lookup_append_single_none seen k i a.1).mp (h3 a ha')).1
        · rintro ⟨h1, h2, h3⟩
          rw [List.map_cons, List.nodup_cons] at h2
          refine ⟨fun a ha => h1 a (List.mem_cons_of_mem _ ha), h2.2, ?_⟩
          intro a ha
          rw [lookup_append_single_none]
          refine ⟨h3 a (List.mem_cons_of_mem _ ha), fun hak => ?_⟩
          exact h2.1 (List.mem_map.mpr ⟨a, ha, hak⟩)

/-- The `seen` map accumulated by the switch-arm loop after processing a
prefix of arms starting at index `base`: each discriminant maps to its arm
index. -/
def seenOfBase (base : Nat) : List (Nat × Nat) → List (Nat × Nat)
  | [] => []
  | (k, _) :: rest => (k, base) :: seenOfBase (base + 1) rest

/-- Unrolling the switch-arm loop over a prefix of arms that passes all its
checks: the loop continues on the remaining arms with the prefix's
discriminants accumulated in `seen`. -/
theorem switchArmsLoop_append (dfg : DataFlowGraph) (instKey : Nat) :
    ∀ (pre rest : List (Nat × Nat)) (seen : List (Nat × Nat)) (base : Nat),
      (∀ a ∈ pre, dfg.blockParams a.2 = []) →
      (∀ a ∈ pre, seen.lookup a.1 = none) →
      (pre.map Prod.fst).Nodup →
      switchArmsLoop dfg instKey (pre ++ rest) seen base =
        switchArmsLoop dfg instKey rest (seen ++ seenOfBase base pre) (base + pre.length) := by
  intro pre
  induction pre with
  | nil => intro rest seen base _ _ _; simp [seenOfBase]
  | cons hd pr ih =>
    intro rest seen base hparams hseen hnd
    obtain ⟨k, s⟩ := hd
    have hlk : seen.lookup k = none := hseen (k, s) (List.mem_cons_self _ _)
    have hp0 : dfg.blockParams s = [] := hparams (k, s) (List.mem_cons_self _ _)
    rw [List.cons_append]
    simp only [switchArmsLoop, hlk]
    rw [if_neg (by simp [hp0])]
    rw [List.map_cons, List.nodup_cons] at hnd
    rw [ih rest (seen ++ [(k, base)]) (base + 1)
      (fun a ha => hparams a (List.mem_cons_of_mem _ ha))
      (fun a ha => by
        rw [lookup_append_single_none]
        refine ⟨hseen a (List.mem_cons_of_mem _ ha), fun hak => ?_⟩
        exact hnd.1 (List.mem_map.mpr ⟨a, ha, hak⟩))
      hnd.2]
    have hlen : base + 1 + pr.length = base + (pr.length + 1) := by omega
    rw [List.append_assoc, hlen]
    rfl

/-- Looking up the discriminant of arm `i` in the accumulated `seen` map of
a duplicate-free prefix finds exactly index `base + i`. -/
theorem lookup_seenOfBase :
    ∀ (pre : List (Nat × Nat)) (base i k : Nat),
      i < pre.length → (pre.getD i (0, 0)).1 = k → (pre.map Prod.fst).Nodup →
      (seenOfBase base pre).lookup k = some (base + i) := by
  intro pre
  induction pre with
  | nil => intro base i k hi; cases hi
  | cons hd pr ih =>
    intro base i k hi hk hnd
    obtain ⟨k0, s0⟩ := hd
    rw [List.map_cons, List.nodup_cons] at hnd
    cases i with
    | zero =>
      simp only [List.getD_cons_zero] at hk
      subst hk
      simp [seenOfBase, List.lookup]
    | succ i' =>
      have hi' : i' < pr.length := by simpa using hi
      have hk' : (pr.getD i' (0, 0)).1 = k := by simpa using hk
      have hne : k ≠ k0 := by
        intro h
        subst h
        refine hnd.1 (List.mem_map.mpr ⟨pr.getD i' (0, 0), ?_, hk'⟩)
        rw [List.getD_eq_getElem pr (0, 0) hi']
        exact List.getElem_mem hi'
      have hbeq : (k == k0) = false := beq_eq_false_iff_ne.mpr hne
      simp only [seenOfBase, List.lookup, hbeq]
      rw [ih (base + 1) i' k hi' hk' hnd.2]
      congr 1
      omega

/-- C7: for a switch instruction with a `u32` discriminant operand and no
results, the type-checking rule passes iff the arm discriminants are
pairwise distinct and neither any arm's successor nor the default
successor has block parameters; moreover, when all arm successors before
the first duplicate are parameterless and the arm at index `|pre|`
repeats the discriminant of the earlier arm `i`, the rule fails citing
both arm indices. -/
theorem switch_arm_uniqueness (sig : Signature) (dfg : DataFlowGraph)
    (key blk : Nat) (lnk : Bool) (arg : Nat)
    (arms : List (Nat × Nat)) (fb : Nat)
    (harg : dfg.valueType arg = Ty.U32)
    (hres : dfg.instResults key = []) :
    (typecheckInst sig dfg ⟨key, blk, lnk, .switch .Switch arg arms fb⟩ = .ok () ↔
      ((arms.map Prod.fst).Nodup ∧ (∀ a ∈ arms, dfg.blockParams a.2 = []) ∧
        dfg.blockParams fb = [])) ∧
    (∀ pre kj sj suf i, arms = pre ++ (kj, sj) :: suf →
      (∀ a ∈ pre, dfg.blockParams a.2 = []) →
      (pre.map Prod.fst).Nodup →
      i < pre.length → (pre.getD i (0, 0)).1 = kj →
      typecheckInst sig dfg ⟨key, blk, lnk, .switch .Switch arg arms fb⟩ =
        .error (.invalidInstruction key (.duplicateDiscriminant pre.length i))) := by
  have hstep : typecheckInst sig dfg ⟨key, blk, lnk, .switch .Switch arg arms fb⟩ =
      (match switchArmsLoop dfg key arms [] 0 with
       | .error e => .error e
       | .ok _ =>
         if (dfg.blockParams fb).length ≠ 0 then
           .error (.invalidInstruction key (.switchSuccessorHasParams fb))
         else .ok ()) := by
    simp [typecheckInst, instPatternFor, Instruction.opcode, InstPattern.intoMatch,
      checkExactArgs, checkExactResults, hres, harg, TypePattern.matches]
  constructor
  · rw [hstep]
    cases hloop : switchArmsLoop dfg key arms [] 0 with
    | error e =>
      constructor
      · intro hfalse; cases hfalse
      · rintro ⟨hnd, hp, -⟩
        have := (switchArmsLoop_ok dfg key arms [] 0).mpr
          ⟨hp, hnd, fun a _ => rfl⟩
        rw [hloop] at this; cases this
    | ok u =>
      cases u
      have hok := (switchArmsLoop_ok dfg key arms [] 0).mp hloop
      dsimp only
      split
      · rename_i hfb
        constructor
        · intro hfalse; cases hfalse
        · rintro ⟨-, -, hfb0⟩
          rw [hfb0] at hfb
          simp at hfb
      · rename_i hfb
        simp only [ne_eq, not_not] at hfb
        have hfb0 : dfg.blockParams fb = [] := List.length_eq_zero.mp hfb
        constructor
        · intro _
          exact ⟨hok.2.1, hok.1, hfb0⟩
        · intro _
          rfl
  · rintro pre kj sj suf i rfl hparams hnd hi hk
    rw [hstep]
    rw [switchArmsLoop_append dfg key pre ((kj, sj) :: suf) [] 0 hparams
      (fun a _ => rfl) hnd]
    simp only [switchArmsLoop, List.nil_append]
    rw [lookup_seenOfBase pre 0 i kj hi hk hnd]
    simp only [Nat.zero_add]

/-- A three-block graph (all blocks parameterless) with one `u32` value
serving as a switch discriminant. -/
def c7Dfg : DataFlowGraph :=
  ⟨0, ⟨⟨[some ⟨0, [], []⟩, some ⟨1, [], []⟩, some ⟨2, [], []⟩]⟩, [0, 1, 2]⟩,
    ArenaMap.new, [], [ValueData.param Ty.U32 0 0], [], []⟩

/-- Witness for C7: a concrete switch with two arms sharing discriminant 5
fails the equivalence's right side and, via the citation clause, errors
naming arm indices 1 and 0. -/
theorem switch_arm_uniqueness_witness :
    c7Dfg.valueType 0 = Ty.U32 ∧
    c7Dfg.instResults 3 = [] ∧
    (typecheckInst ⟨[], []⟩ c7Dfg ⟨3, 0, true, .switch .Switch 0 [(5, 1), (5, 2)] 2⟩ =
        .ok () ↔
      (([(5, 1), (5, 2)].map Prod.fst).Nodup ∧
        (∀ a ∈ [(5, 1), (5, 2)], c7Dfg.blockParams a.2 = []) ∧
        c7Dfg.blockParams 2 = [])) ∧
    typecheckInst ⟨[], []⟩ c7Dfg ⟨3, 0, true, .switch .Switch 0 [(5, 1), (5, 2)] 2⟩ =
      .error (.invalidInstruction 3 (.duplicateDiscriminant 1 0)) := by
  refine ⟨rfl, rfl, ?_, ?_⟩
  · exact (switch_arm_uniqueness ⟨[], []⟩ c7Dfg 3 0 true 0 [(5, 1), (5, 2)] 2 rfl rfl).1
  · exact (switch_arm_uniqueness ⟨[], []⟩ c7Dfg 3 0 true 0 [(5, 1), (5, 2)] 2 rfl rfl).2
      [(5, 1)] 5 2 [] 0 rfl (by decide) (by decide) (by decide) rfl

/-! ## C5 and C9: result-list surgery lemmas -/

/-- Reading back the binding just set in the results map. -/
theorem assocGet_set_self (rs : List (Nat × List Nat)) (k : Nat) (v : List Nat) :
    assocGet (assocSet rs k v) k = v := by
  induction rs with
  | nil => simp [assocSet, assocGet]
  | cons hd rest ih =>
    obtain ⟨k0, v0⟩ := hd
    by_cases h : k0 = k
    · subst h; simp [assocSet, assocGet]
    · simp [assocSet, assocGet, h, ih, Ne.symm h]

/-- Setting one instruction's results leaves every other instruction's
results unchanged. -/
theorem assocGet_set_ne (rs : List (Nat × List Nat)) (k j : Nat) (v : List Nat)
    (h : j ≠ k) : assocGet (assocSet rs k v) j = assocGet rs j := by
  induction rs with
  | nil => simp [assocSet, assocGet, Ne.symm h]
  | cons hd rest ih =>
    obtain ⟨k0, v0⟩ := hd
    by_cases hk : k0 = k
    · subst hk
      simp [assocSet, assocGet, Ne.symm h]
    · simp [assocSet, assocGet, hk, ih]

/-- Updating a value's recorded type changes only the type. -/
theorem ValueData.ty_setType (d : ValueData) (ty : Ty) : (d.setType ty).ty = ty := by
  cases d <;> rfl

/-- `set_value_type` does not touch the results map. -/
theorem setValueType_instResults (dfg : DataFlowGraph) (v : Nat) (ty : Ty) (inst : Nat) :
    (dfg.setValueType v ty).instResults inst = dfg.instResults inst := by
  unfold DataFlowGraph.setValueType
  cases dfg.values[v]? <;> rfl

/-- `set_value_type` does not change the number of values. -/
theorem setValueType_values_length (dfg : DataFlowGraph) (v : Nat) (ty : Ty) :
    (dfg.setValueType v ty).values.length = dfg.values.length := by
  unfold DataFlowGraph.setValueType
  cases dfg.values[v]? <;> simp

/-- `set_value_type` records the new type on its target value. -/
theorem setValueType_valueType_self (dfg : DataFlowGraph) (v : Nat) (ty : Ty)
    (h : v < dfg.values.length) :
    (dfg.setValueType v ty).valueType v = ty := by
  unfold DataFlowGraph.setValueType
  split
  · rename_i d hd
    simp only [DataFlowGraph.valueType, List.getElem?_set_self h, ValueData.ty_setType]
  · rename_i hd
    rw [List.getElem?_eq_none_iff] at hd
    omega

/-- `set_value_type` leaves every other value's type unchanged. -/
theorem setValueType_valueType_ne (dfg : DataFlowGraph) (v w : Nat) (ty : Ty)
    (h : w ≠ v) : (dfg.setValueType v ty).valueType w = dfg.valueType w := by
  unfold DataFlowGraph.setValueType
  split
  · rename_i d hd
    simp only [DataFlowGraph.valueType, List.getElem?_set_ne (Ne.symm h)]
  · rfl

/-- `append_result` appends exactly the next value id to the instruction's
result list. -/
theorem appendResult_instResults_self (dfg : DataFlowGraph) (inst : Nat) (ty : Ty) :
    (dfg.appendResult inst ty).instResults inst =
      dfg.instResults inst ++ [dfg.values.length] := by
  simp [DataFlowGraph.appendResult, DataFlowGraph.instResults, assocGet_set_self]

/-- `append_result` leaves other instructions' result lists unchanged. -/
theorem appendResult_instResults_ne (dfg : DataFlowGraph) (inst j : Nat) (ty : Ty)
    (h : j ≠ inst) :
    (dfg.appendResult inst ty).instResults j = dfg.instResults j := by
  simp [DataFlowGraph.appendResult, DataFlowGraph.instResults, assocGet_set_ne _ _ _ _ h]

/-- `append_result` adds one value. -/
theorem appendResult_values_length (dfg : DataFlowGraph) (inst : Nat) (ty : Ty) :
    (dfg.appendResult inst ty).values.length = dfg.values.length + 1 := by
  simp [DataFlowGraph.appendResult]

/-- `append_result` leaves existing values' types unchanged. -/
theorem appendResult_valueType_lt (dfg : DataFlowGraph) (inst : Nat) (ty : Ty)
    (v : Nat) (h : v < dfg.values.length) :
    (dfg.appendResult inst ty).valueType v = dfg.valueType v := by
  simp only [DataFlowGraph.appendResult, DataFlowGraph.valueType,
    List.getElem?_append_left h]

/-- The value allocated by `append_result` records the requested type. -/
theorem appendResult_valueType_new (dfg : DataFlowGraph) (inst : Nat) (ty : Ty) :
    (dfg.appendResult inst ty).valueType dfg.values.length = ty := by
  simp only [DataFlowGraph.appendResult, DataFlowGraph.valueType]
  rw [List.getElem?_append, if_neg (by omega)]
  simp [ValueData.ty]

/-- Distinct positions of a duplicate-free list hold distinct values. -/
theorem nodup_getD_ne (l : List Nat) (hnd : l.Nodup) (i j : Nat)
    (hi : i < l.length) (hj : j < l.length) (hij : i ≠ j) :
    l.getD i 0 ≠ l.getD j 0 := by
  rw [List.getD_eq_getElem l 0 hi, List.getD_eq_getElem l 0 hj]
  intro h
  exact hij ((List.Nodup.getElem_inj_iff hnd).mp h)

/-- Shape of the `replace_results` loop: positions below the old count
leave the stored result list and value count unchanged; each further
position appends the next value id. -/
theorem replaceResultsLoop_results (inst : Nat) (old : List Nat) :
    ∀ (tys : List Ty) (index : Nat) (dfgA : DataFlowGraph),
      (replaceResultsLoop inst old tys index dfgA).instResults inst =
        dfgA.instResults inst ++
          List.range' dfgA.values.length (tys.length - (old.length - index)) ∧
      (replaceResultsLoop inst old tys index dfgA).values.length =
        dfgA.values.length + (tys.length - (old.length - index)) := by
  intro tys
  induction tys with
  | nil => intro index dfgA; simp [replaceResultsLoop]
  | cons ty rest ih =>
    intro index dfgA
    simp only [replaceResultsLoop, List.length_cons]
    by_cases h : index ≥ old.length
    · rw [if_pos h]
      obtain ⟨ih1, ih2⟩ := ih (index + 1) (dfgA.appendResult inst ty)
      rw [ih1, ih2, appendResult_instResults_self, appendResult_values_length]
      have hc1 : rest.length - (old.length - (index + 1)) = rest.length := by omega
      have hc2 : rest.length + 1 - (old.length - index) = rest.length + 1 := by omega
      rw [hc1, hc2]
      constructor
      · rw [List.append_assoc]
        congr 1
      · omega
    · rw [if_neg h]
      obtain ⟨ih1, ih2⟩ := ih (index + 1) (dfgA.setValueType (old.getD index 0) ty)
      rw [ih1, ih2, setValueType_instResults, setValueType_values_length]
      have hc : rest.length - (old.length - (index + 1)) =
          rest.length + 1 - (old.length - index) := by omega
      rw [hc]
      exact ⟨rfl, rfl⟩

/-- The `replace_results` loop leaves the type of any value that is not one
of the remaining old results unchanged. -/
theorem replaceResultsLoop_preserve (inst : Nat) (old : List Nat) :
    ∀ (tys : List Ty) (index : Nat) (dfgA : DataFlowGraph) (v : Nat),
      v < dfgA.values.length →
      (∀ j, index ≤ j → j < old.length → old.getD j 0 ≠ v) →
      (replaceResultsLoop inst old tys index dfgA).valueType v = dfgA.valueType v := by
  intro tys
  induction tys with
  | nil => intro index dfgA v _ _; rfl
  | cons ty rest ih =>
    intro index dfgA v hv hne
    simp only [replaceResultsLoop]
    by_cases h : index ≥ old.length
    · rw [if_pos h]
      rw [ih (index + 1) _ v (by rw [appendResult_values_length]; omega)
        (fun j hj1 hj2 => hne j (by omega) hj2)]
      exact appendResult_valueType_lt dfgA inst ty v hv
    · rw [if_neg h]
      rw [ih (index + 1) _ v (by rw [setValueType_values_length]; omega)
        (fun j hj1 hj2 => hne j (by omega) hj2)]
      exact setValueType_valueType_ne dfgA _ v ty
        (Ne.symm (hne index (le_refl index) (by omega)))

/-- The `replace_results` loop records, on the old result at position `i`,
the new type at position `i`. -/
theorem replaceResultsLoop_types (inst : Nat) (old : List Nat) (hnd : old.Nodup) :
    ∀ (tys : List Ty) (index : Nat) (dfgA : DataFlowGraph),
      (∀ j, j < old.length → old.getD j 0 < dfgA.values.length) →
      ∀ i, index ≤ i → i < old.length → i - index < tys.length →
        (replaceResultsLoop inst old tys index dfgA).valueType (old.getD i 0) =
          tys.getD (i - index) Ty.I1 := by
  intro tys
  induction tys with
  | nil => intro index dfgA _ i _ _ hcontra; simp at hcontra
  | cons ty rest ih =>
    intro index dfgA hrange i hle hi hlen
    simp only [List.length_cons] at hlen
    simp only [replaceResultsLoop]
    have hix : index < old.length := by omega
    rw [if_neg (by omega)]
    by_cases hii : i = index
    · subst hii
      rw [replaceResultsLoop_preserve inst old rest (i + 1)
        (dfgA.setValueType (old.getD i 0) ty) (old.getD i 0)
        (by rw [setValueType_values_length]; exact hrange i hi)
        (fun j hj1 hj2 => nodup_getD_ne old hnd j i hj2 hi (by omega))]
      rw [setValueType_valueType_self dfgA _ ty (hrange i hi)]
      simp
    · rw [ih (index + 1) _
        (fun j hj => by rw [setValueType_values_length]; exact hrange j hj)
        i (by omega) hi (by omega)]
      have hsub : i - index = (i - (index + 1)) + 1 := by omega
      rw [hsub, List.getD_cons_succ]

/-- C5: `replace_results` with a controlling type yielding `n` new result
types on an instruction with `m` old results keeps the first `min n m` old
value identities in place (the surviving result list is a prefix of the old
one), discards any excess when `n < m`, appends exactly `n - m` freshly
allocated values (consecutive new ids) when `n ≥ m`, and records the `i`-th
new type on the `i`-th surviving old identity. -/
theorem replace_results_spec (dfg : DataFlowGraph) (inst : Nat) (ctrlTy : Ty)
    (hnd : (dfg.instResults inst).Nodup)
    (hrange : ∀ j, j < (dfg.instResults inst).length →
      (dfg.instResults inst).getD j 0 < dfg.values.length) :
    (dfg.replaceResults inst ctrlTy).instResults inst =
      (dfg.instResults inst).take (dfg.newResultTypes inst ctrlTy).length ++
        List.range' dfg.values.length
          ((dfg.newResultTypes inst ctrlTy).length - (dfg.instResults inst).length) ∧
    (∀ i, i < (dfg.instResults inst).length →
      i < (dfg.newResultTypes inst ctrlTy).length →
      (dfg.replaceResults inst ctrlTy).valueType ((dfg.instResults inst).getD i 0) =
        (dfg.newResultTypes inst ctrlTy).getD i Ty.I1) := by
  have hre : dfg.replaceResults inst ctrlTy =
      replaceResultsLoop inst (dfg.instResults inst) (dfg.newResultTypes inst ctrlTy) 0
        (if (dfg.instResults inst).length > (dfg.newResultTypes inst ctrlTy).length then
          { dfg with
              results := assocSet dfg.results inst
                ((dfg.instResults inst).take (dfg.newResultTypes inst ctrlTy).length)
              values := dfg.values }
         else dfg) := rfl
  rw [hre]
  by_cases h :
      (dfg.instResults inst).length > (dfg.newResultTypes inst ctrlTy).length
  · rw [if_pos h]
    have h1res :
        (DataFlowGraph.instResults
          { dfg with
              results := assocSet dfg.results inst
                ((dfg.instResults inst).take (dfg.newResultTypes inst ctrlTy).length)
              values := dfg.values } inst) =
          (dfg.instResults inst).take (dfg.newResultTypes inst ctrlTy).length := by
      simp [DataFlowGraph.instResults, assocGet_set_self]
    constructor
    · obtain ⟨l1, -⟩ := replaceResultsLoop_results inst (dfg.instResults inst)
        (dfg.newResultTypes inst ctrlTy) 0 _
      rw [l1, h1res]
      have hz : (dfg.newResultTypes inst ctrlTy).length -
          ((dfg.instResults inst).length - 0) = 0 := by omega
      have hz2 : (dfg.newResultTypes inst ctrlTy).length -
          (dfg.instResults inst).length = 0 := by omega
      rw [hz, hz2]
    · intro i hi hilen
      have ht := replaceResultsLoop_types inst (dfg.instResults inst) hnd
        (dfg.newResultTypes inst ctrlTy) 0
        { dfg with
            results := assocSet dfg.results inst
              ((dfg.instResults inst).take (dfg.newResultTypes inst ctrlTy).length)
            values := dfg.values }
        (fun j hj => hrange j hj) i (by omega) hi (by omega)
      rw [ht]
      simp
  · rw [if_neg h]
    constructor
    · obtain ⟨l1, -⟩ := replaceResultsLoop_results inst (dfg.instResults inst)
        (dfg.newResultTypes inst ctrlTy) 0 dfg
      rw [l1]
      have htake : (dfg.instResults inst).take (dfg.newResultTypes inst ctrlTy).length =
          dfg.instResults inst :=
        List.take_of_length_le (by omega)
      rw [htake]
      have hsub : (dfg.newResultTypes inst ctrlTy).length -
          ((dfg.instResults inst).length - 0) =
          (dfg.newResultTypes inst ctrlTy).length - (dfg.instResults inst).length := by
        omega
      rw [hsub]
    · intro i hi hilen
      have ht := replaceResultsLoop_types inst (dfg.instResults inst) hnd
        (dfg.newResultTypes inst ctrlTy) 0 dfg
        (fun j hj => hrange j hj) i (by omega) hi (by omega)
      rw [ht]
      simp

/-- A graph with one two-result `add` instruction (key 0, results 0 and 1,
both `u64`). -/
def c5Dfg : DataFlowGraph :=
  ⟨0, OrderedArenaMap.new, ⟨[some ⟨0, 0, true, .binaryOp .Add .Unchecked 0 1⟩]⟩,
    [(0, [0, 1])],
    [ValueData.instResult Ty.U64 0 0, ValueData.instResult Ty.U64 0 1], [], []⟩

/-- Witness for C5: replacing the results of the concrete two-result `add`
with controlling type `u32` (whose result rule yields one type) keeps the
first old identity, updates its type to `u32`, and discards the excess. -/
theorem replace_results_spec_witness :
    (c5Dfg.instResults 0).Nodup ∧
    (∀ j, j < (c5Dfg.instResults 0).length →
      (c5Dfg.instResults 0).getD j 0 < c5Dfg.values.length) ∧
    (c5Dfg.replaceResults 0 Ty.U32).instResults 0 =
      (c5Dfg.instResults 0).take (c5Dfg.newResultTypes 0 Ty.U32).length ++
        List.range' c5Dfg.values.length
          ((c5Dfg.newResultTypes 0 Ty.U32).length - (c5Dfg.instResults 0).length) ∧
    (∀ i, i < (c5Dfg.instResults 0).length →
      i < (c5Dfg.newResultTypes 0 Ty.U32).length →
      (c5Dfg.replaceResults 0 Ty.U32).valueType ((c5Dfg.instResults 0).getD i 0) =
        (c5Dfg.newResultTypes 0 Ty.U32).getD i Ty.I1) :=
  ⟨by decide, by decide,
    (replace_results_spec c5Dfg 0 Ty.U32 (by decide) (by decide)).1,
    (replace_results_spec c5Dfg 0 Ty.U32 (by decide) (by decide)).2⟩

/-- The result-derivation fold of `clone_inst` never touches the
instruction arena. -/
theorem appendResultFold_insts (id : Nat) :
    ∀ (rs : List Nat) (dfgA : DataFlowGraph),
      (rs.foldl (fun d r => d.appendResult id (d.valueType r)) dfgA).insts = dfgA.insts := by
  intro rs
  induction rs with
  | nil => intro dfgA; rfl
  | cons r rest ih =>
    intro dfgA
    simp only [List.foldl_cons]
    rw [ih]
    rfl

/-- The result-derivation fold of `clone_inst`: appends one fresh value per
source result, preserving existing values' types and other instructions'
result lists, and recording on the `i`-th fresh value the current type of
the `i`-th source value. -/
theorem appendResultFold (id : Nat) :
    ∀ (rs : List Nat) (dfgA : DataFlowGraph),
      (∀ r ∈ rs, r < dfgA.values.length) →
      ((rs.foldl (fun d r => d.appendResult id (d.valueType r)) dfgA).instResults id =
          dfgA.instResults id ++ List.range' dfgA.values.length rs.length) ∧
      ((rs.foldl (fun d r => d.appendResult id (d.valueType r)) dfgA).values.length =
          dfgA.values.length + rs.length) ∧
      (∀ v, v < dfgA.values.length →
        (rs.foldl (fun d r => d.appendResult id (d.valueType r)) dfgA).valueType v =
          dfgA.valueType v) ∧
      (∀ j, j ≠ id →
        (rs.foldl (fun d r => d.appendResult id (d.valueType r)) dfgA).instResults j =
          dfgA.instResults j) ∧
      (∀ i, i < rs.length →
        (rs.foldl (fun d r => d.appendResult id (d.valueType r)) dfgA).valueType
            (dfgA.values.length + i) =
          dfgA.valueType (rs.getD i 0)) := by
  intro rs
  induction rs with
  | nil =>
    intro dfgA _
    refine ⟨by simp, by simp, fun v _ => rfl, fun j _ => rfl, fun i hi => by simp at hi⟩
  | cons r rest ih =>
    intro dfgA hr
    simp only [List.foldl_cons, List.length_cons]
    have hrA : r < dfgA.values.length := hr r (List.mem_cons_self _ _)
    obtain ⟨j1, j2, j3, j4, j5⟩ := ih (dfgA.appendResult id (dfgA.valueType r))
      (fun x hx => by
        rw [appendResult_values_length]
        exact Nat.lt_succ_of_lt (hr x (List.mem_cons_of_mem _ hx)))
    refine ⟨?_, ?_, ?_, ?_, ?_⟩
    · rw [j1, appendResult_instResults_self, appendResult_values_length,
        List.append_assoc]
      congr 1
    · rw [j2, appendResult_values_length]
      omega
    · intro v hv
      rw [j3 v (by rw [appendResult_values_length]; omega)]
      exact appendResult_valueType_lt dfgA id _ v hv
    · intro j hj
      rw [j4 j hj]
      exact appendResult_instResults_ne dfgA id j _ hj
    · intro i hi
      cases i with
      | zero =>
        rw [Nat.add_zero,
          j3 dfgA.values.length (by rw [appendResult_values_length]; omega),
          appendResult_valueType_new]
        simp
      | succ i' =>
        have hi' : i' < rest.length := by omega
        have hj5 := j5 i' hi'
        rw [appendResult_values_length] at hj5
        have harith : dfgA.values.length + (i' + 1) = dfgA.values.length + 1 + i' := by
          omega
        rw [harith, hj5, List.getD_cons_succ]
        refine appendResult_valueType_lt dfgA id _ _ (hr _ (List.mem_cons_of_mem _ ?_))
        rw [List.getD_eq_getElem _ _ hi']
        exact List.getElem_mem hi'

/-- C9: `clone_inst` returns a fresh instruction key (distinct from every
existing key, in particular from the original), whose node is detached
(`inst_block` is `None`) and whose payload is a deep copy content-equal to
the original's; its result list consists of exactly
`|results(original)|` freshly allocated consecutive value ids, disjoint
from the original's result values, recording the same types in the same
order; the original's result list is untouched. -/
theorem clone_inst_spec (dfg : DataFlowGraph) (inst : Nat) (node : InstNode)
    (hnode : dfg.insts.get inst = some node)
    (hrange : ∀ r ∈ dfg.instResults inst, r < dfg.values.length)
    (hfresh : dfg.instResults dfg.insts.keys.length = []) :
    (dfg.cloneInst inst).1 = dfg.insts.keys.length ∧
    dfg.insts.contains (dfg.cloneInst inst).1 = false ∧
    inst ≠ (dfg.cloneInst inst).1 ∧
    (dfg.cloneInst inst).2.instBlock (dfg.cloneInst inst).1 = none ∧
    ((dfg.cloneInst inst).2.insts.get (dfg.cloneInst inst).1).map InstNode.data =
      some node.data ∧
    (dfg.cloneInst inst).2.instResults (dfg.cloneInst inst).1 =
      List.range' dfg.values.length (dfg.instResults inst).length ∧
    (dfg.cloneInst inst).2.instResults inst = dfg.instResults inst ∧
    (∀ i, i < (dfg.instResults inst).length →
      (dfg.cloneInst inst).2.valueType (dfg.values.length + i) =
        dfg.valueType ((dfg.instResults inst).getD i 0)) ∧
    (∀ v ∈ (dfg.cloneInst inst).2.instResults (dfg.cloneInst inst).1,
      v ∉ dfg.instResults inst) := by
  have hinstlt : inst < dfg.insts.keys.length := by
    by_contra hge
    rw [ArenaMap.get, List.getD_eq_default _ _ (by omega)] at hnode
    cases hnode
  have hcl : dfg.cloneInst inst =
      (dfg.insts.keys.length,
        (dfg.instResults inst).foldl
          (fun d r => d.appendResult dfg.insts.keys.length (d.valueType r))
          { dfg with
              insts := ⟨(dfg.insts.keys ++ [none]).set dfg.insts.keys.length
                (some ⟨dfg.insts.keys.length, 0, false, node.data⟩)⟩ }) := by
    unfold DataFlowGraph.cloneInst
    rw [hnode]
    rfl
  rw [hcl]
  obtain ⟨j1, j2, j3, j4, j5⟩ := appendResultFold dfg.insts.keys.length
    (dfg.instResults inst)
    { dfg with
        insts := ⟨(dfg.insts.keys ++ [none]).set dfg.insts.keys.length
          (some ⟨dfg.insts.keys.length, 0, false, node.data⟩)⟩ }
    (fun r hrm => hrange r hrm)
  have hins := appendResultFold_insts dfg.insts.keys.length (dfg.instResults inst)
    { dfg with
        insts := ⟨(dfg.insts.keys ++ [none]).set dfg.insts.keys.length
          (some ⟨dfg.insts.keys.length, 0, false, node.data⟩)⟩ }
  have hget : (ArenaMap.get
      (⟨(dfg.insts.keys ++ [none]).set dfg.insts.keys.length
        (some ⟨dfg.insts.keys.length, 0, false, node.data⟩)⟩ : ArenaMap InstNode)
      dfg.insts.keys.length) =
      some ⟨dfg.insts.keys.length, 0, false, node.data⟩ := by
    rw [ArenaMap.get, List.getD_eq_getElem?_getD,
      List.getElem?_set_self (by simp)]
    rfl
  refine ⟨rfl, ?_, by omega, ?_, ?_, ?_, ?_, ?_, ?_⟩
  · rw [ArenaMap.contains, ArenaMap.get, List.getD_eq_default _ _ (le_refl _)]
    rfl
  · rw [DataFlowGraph.instBlock, hins, hget]
    rfl
  · rw [hins, hget]
    rfl
  · rw [j1]
    show dfg.instResults dfg.insts.keys.length ++
        List.range' dfg.values.length (dfg.instResults inst).length =
      List.range' dfg.values.length (dfg.instResults inst).length
    rw [hfresh, List.nil_append]
  · exact j4 inst (by omega)
  · intro i hi
    exact j5 i hi
  · intro v hv hvold
    rw [j1] at hv
    have hv2 : v ∈ dfg.instResults dfg.insts.keys.length ++
        List.range' dfg.values.length (dfg.instResults inst).length := hv
    rw [hfresh, List.nil_append] at hv2
    have hge := (List.mem_range'_1.mp hv2).1
    have hlt := hrange v hvold
    omega

/-- A graph with one two-result `add` instruction whose results have types
`u32` and `felt`, for exercising `clone_inst`. -/
def c9Dfg : DataFlowGraph :=
  ⟨0, OrderedArenaMap.new, ⟨[some ⟨0, 0, true, .binaryOp .Add .Unchecked 0 1⟩]⟩,
    [(0, [0, 1])],
    [ValueData.instResult Ty.U32 0 0, ValueData.instResult Ty.Felt 0 1], [], []⟩

/-- Witness for C9: cloning the concrete `add` instruction allocates key 1,
detached, with content-equal payload and fresh result values 2 and 3
carrying the original result types. -/
theorem clone_inst_spec_witness :
    c9Dfg.insts.get 0 = some ⟨0, 0, true, .binaryOp .Add .Unchecked 0 1⟩ ∧
    (∀ r ∈ c9Dfg.instResults 0, r < c9Dfg.values.length) ∧
    c9Dfg.instResults c9Dfg.insts.keys.length = [] ∧
    (c9Dfg.cloneInst 0).1 = c9Dfg.insts.keys.length ∧
    c9Dfg.insts.contains (c9Dfg.cloneInst 0).1 = false ∧
    (0 : Nat) ≠ (c9Dfg.cloneInst 0).1 ∧
    (c9Dfg.cloneInst 0).2.instBlock (c9Dfg.cloneInst 0).1 = none ∧
    ((c9Dfg.cloneInst 0).2.insts.get (c9Dfg.cloneInst 0).1).map InstNode.data =
      some (Instruction.binaryOp .Add .Unchecked 0 1) ∧
    (c9Dfg.cloneInst 0).2.instResults (c9Dfg.cloneInst 0).1 =
      List.range' c9Dfg.values.length (c9Dfg.instResults 0).length ∧
    (c9Dfg.cloneInst 0).2.instResults 0 = c9Dfg.instResults 0 ∧
    (∀ i, i < (c9Dfg.instResults 0).length →
      (c9Dfg.cloneInst 0).2.valueType (c9Dfg.values.length + i) =
        c9Dfg.valueType ((c9Dfg.instResults 0).getD i 0)) ∧
    (∀ v ∈ (c9Dfg.cloneInst 0).2.instResults (c9Dfg.cloneInst 0).1,
      v ∉ c9Dfg.instResults 0) := by
  have h := clone_inst_spec c9Dfg 0 ⟨0, 0, true, .binaryOp .Add .Unchecked 0 1⟩
    rfl (by decide) rfl
  exact ⟨rfl, by decide, rfl, h.1, h.2.1, h.2.2.1, h.2.2.2.1, h.2.2.2.2.1,
    h.2.2.2.2.2.1, h.2.2.2.2.2.2.1, h.2.2.2.2.2.2.2.1, h.2.2.2.2.2.2.2.2⟩

end MidenIR
